import Mathlib

/-!
Verification of the activity data-processing pipeline of the strava-dashboard
repository (`src/data_processing.py`).

The embedding models a pandas `DataFrame` of activities as a list of row
records together with explicit column-presence flags: in pandas, a column
exists when at least one input record carries the field, and records lacking
the field hold `NaN` in that column.  `NaN` / missing values are modelled as
`Option` (`none` = NaN / NaT), numeric values as `ℚ`, and every operation that
can raise in Python (`df["col"]` on a missing column, `idxmin`/`idxmax` on an
all-NA column, `astype(int)` on NA) returns `Except String`.
-/

namespace StravaDash

/-- A calendar date, as carried by a parsed `pandas` timestamp
(`pd.to_datetime`); the time-of-day component plays no role in any of the
verified functions, so only the civil date is modelled. -/
structure DateT where
  year : Int
  month : Int
  day : Int
deriving DecidableEq

/-- Days from civil date to the epoch day count (1970-01-01 = day 0),
the standard civil-calendar algorithm.  Lean `Int` division is floor
division for positive divisors, matching Python. -/
def daysFromCivil (y m d : Int) : Int :=
  let y2 := if m ≤ 2 then y - 1 else y
  let era := y2 / 400
  let yoe := y2 - era * 400
  let mp := (m + 9) % 12
  let doy := (153 * mp + 2) / 5 + d - 1
  let doe := yoe * 365 + yoe / 4 - yoe / 100 + doy
  era * 146097 + doe - 719468

/-- The epoch day of a `DateT`. -/
def DateT.epochDay (dt : DateT) : Int :=
  daysFromCivil dt.year dt.month dt.day

/-- Epoch day of the Monday starting the ISO week that contains epoch day `e`
(this is `Timestamp.to_period("W").start_time` at day granularity:
pandas weekly periods run Monday through Sunday). -/
def weekStartDay (e : Int) : Int := e - (e + 3) % 7

/-- Epoch day of the Thursday of the ISO week containing epoch day `e`. -/
def isoThursday (e : Int) : Int := weekStartDay e + 3

/-- The ISO week-numbering year of a date (the year owning the Thursday of
its week), used by `Series.dt.isocalendar()`. -/
def isoWeekYear (dt : DateT) : Int :=
  let th := isoThursday dt.epochDay
  if daysFromCivil (dt.year + 1) 1 1 ≤ th then dt.year + 1
  else if daysFromCivil dt.year 1 1 ≤ th then dt.year
  else dt.year - 1

/-- The ISO week number of a date: week 1 is the week containing January 4 of
the ISO week-numbering year. -/
def isoWeek (dt : DateT) : Int :=
  (isoThursday dt.epochDay - weekStartDay (daysFromCivil (isoWeekYear dt) 1 4)) / 7 + 1

/-- Left-pad a nonnegative integer below 10 with a zero, as Python
`f"{n:02d}"` does for the two-digit case. -/
def pad2 (n : Int) : String :=
  if 0 ≤ n ∧ n < 10 then "0" ++ toString n else toString n

/-- The `YYYY-MM` month bucket label produced by
`dt.to_period("M").astype(str)`. -/
def monthLabel (dt : DateT) : String :=
  toString dt.year ++ "-" ++ pad2 dt.month

/-- English weekday name of an epoch day, as `Series.dt.day_name()` yields. -/
def dayNameOf (e : Int) : String :=
  [ "Sunday", "Monday", "Tuesday", "Wednesday", "Thursday", "Friday",
    "Saturday" ].getD ((e + 4) % 7).toNat ""

/-- Abbreviated English month name used by `strftime("%b")`. -/
def monthAbbrev (m : Int) : String :=
  [ "Jan", "Feb", "Mar", "Apr", "May", "Jun", "Jul", "Aug", "Sep", "Oct",
    "Nov", "Dec" ].getD (m - 1).toNat ""

/-- Date display `strftime("%d %b %Y")` used for personal-best entries. -/
def formatDMY (dt : DateT) : String :=
  pad2 dt.day ++ " " ++ monthAbbrev dt.month ++ " " ++ toString dt.year

/-- One raw activity record as handed to `activities_to_dataframe`: a
provider JSON object.  A field the record does not carry is `none`; building
the `DataFrame` turns such holes into `NaN` cells whenever some other record
of the batch does carry the field.  Dates are taken as already structured
(string parsing by `pd.to_datetime` is outside the modelled core). -/
structure RawActivity where
  id : Option Nat := none
  name : Option String := none
  type : Option String := none
  start_date : Option DateT := none
  start_date_local : Option DateT := none
  distance : Option ℚ := none
  icu_distance : Option ℚ := none
  moving_time : Option ℚ := none
  icu_moving_time : Option ℚ := none
  elapsed_time : Option ℚ := none
  icu_elapsed_time : Option ℚ := none
  total_elevation_gain : Option ℚ := none
  icu_total_elevation_gain : Option ℚ := none
  average_watts : Option ℚ := none
  icu_average_watts : Option ℚ := none
  weighted_avg_watts : Option ℚ := none
  icu_weighted_avg_watts : Option ℚ := none
  max_speed : Option ℚ := none
deriving DecidableEq

/-- Whether the column extracted by `f` is present in the frame built from
`batch`: pandas creates a column when at least one record carries the key. -/
def colSome {α : Type} (batch : List RawActivity) (f : RawActivity → Option α) : Bool :=
  batch.any fun r => (f r).isSome

/-- A numeric column of the intermediate frame: a presence bit plus the cell
value each original record gets (a `none` cell is `NaN`). -/
structure ColQ where
  present : Bool
  val : RawActivity → Option ℚ

/-- The raw column read straight off the batch for field `f`. -/
def rawCol (batch : List RawActivity) (f : RawActivity → Option ℚ) : ColQ :=
  ⟨colSome batch f, f⟩

/-- One provider-alias normalization step of `activities_to_dataframe`:
`if "icu_x" in df.columns and "x" not in df.columns: df["x"] = df["icu_x"]`. -/
def aliasStep (canon alt : ColQ) : ColQ :=
  if alt.present && !canon.present then ⟨true, alt.val⟩ else canon

/-- The defaulting loop of `activities_to_dataframe`:
`if col not in df.columns: df[col] = 0`. -/
def defaultStep (c : ColQ) : ColQ :=
  if !c.present then ⟨true, fun _ => some 0⟩ else c

/-- Resolved `distance` column (alias `icu_distance`, default 0). -/
def distanceCol (batch : List RawActivity) : ColQ :=
  defaultStep (aliasStep (rawCol batch (·.distance)) (rawCol batch (·.icu_distance)))

/-- Resolved `moving_time` column (alias `icu_moving_time`, default 0). -/
def movingTimeCol (batch : List RawActivity) : ColQ :=
  defaultStep (aliasStep (rawCol batch (·.moving_time)) (rawCol batch (·.icu_moving_time)))

/-- Resolved `elapsed_time` column (alias `icu_elapsed_time`, default 0). -/
def elapsedTimeCol (batch : List RawActivity) : ColQ :=
  defaultStep (aliasStep (rawCol batch (·.elapsed_time)) (rawCol batch (·.icu_elapsed_time)))

/-- Resolved `total_elevation_gain` column (alias `icu_total_elevation_gain`,
default 0). -/
def elevationCol (batch : List RawActivity) : ColQ :=
  defaultStep (aliasStep (rawCol batch (·.total_elevation_gain))
    (rawCol batch (·.icu_total_elevation_gain)))

/-- Resolved `average_watts` column (alias `icu_average_watts`, no default). -/
def avgWattsCol (batch : List RawActivity) : ColQ :=
  aliasStep (rawCol batch (·.average_watts)) (rawCol batch (·.icu_average_watts))

/-- Resolved `weighted_avg_watts` column (alias `icu_weighted_avg_watts`,
no default). -/
def weightedWattsCol (batch : List RawActivity) : ColQ :=
  aliasStep (rawCol batch (·.weighted_avg_watts)) (rawCol batch (·.icu_weighted_avg_watts))

/-- The resolved `start_date_local` cell for record `r`:
`df["start_date_local"]` when that column exists, else `df["start_date"]`. -/
def resolveSDL (hasSDL : Bool) (r : RawActivity) : Option DateT :=
  if hasSDL then r.start_date_local else r.start_date

/-- One fully enriched activity row, after normalization, unit conversion,
pace/speed derivation and calendar grouping.  `start_date_local` is total
because `activities_to_dataframe` fails the whole batch when any record lacks
a resolvable date (the `astype(int)` on the ISO week column raises on NA). -/
structure Enriched where
  id : Option Nat
  name : Option String
  type : Option String
  start_date : Option DateT
  start_date_local : DateT
  distance : Option ℚ
  moving_time : Option ℚ
  elapsed_time : Option ℚ
  total_elevation_gain : Option ℚ
  average_watts : Option ℚ
  weighted_avg_watts : Option ℚ
  max_speed : Option ℚ
  distance_km : Option ℚ
  distance_miles : Option ℚ
  elapsed_time_min : Option ℚ
  moving_time_min : Option ℚ
  elevation_gain_ft : Option ℚ
  pace_min_per_km : Option ℚ
  speed_kmh : Option ℚ
  week : Int
  year : Int
  month : String
  week_start : Int
  day_of_week : String
deriving DecidableEq

/-- The activity table: the enriched rows plus presence bits for the columns
whose existence is data-dependent and is tested downstream. -/
structure ActivityDF where
  rows : List Enriched
  hasType : Bool
  hasId : Bool
  hasName : Bool
  hasElev : Bool
  hasMaxSpeed : Bool
  hasAvgWatts : Bool
deriving DecidableEq

/-- The column-less frame `pd.DataFrame()`. -/
def dfEmpty : ActivityDF := ⟨[], false, false, false, false, false, false⟩

/-- Enrich one raw record, given the resolved columns of its batch and its
resolved local start date `d`. -/
def enrichRow (batch : List RawActivity) (hasSD : Bool) (r : RawActivity)
    (d : DateT) : Enriched :=
  let dist := (distanceCol batch).val r
  let mov := (movingTimeCol batch).val r
  let elap := (elapsedTimeCol batch).val r
  let elev := (elevationCol batch).val r
  let dkm := dist.map (· / 1000)
  let e := d.epochDay
  { id := r.id
    name := r.name
    type := r.type
    start_date := if hasSD then r.start_date else some d
    start_date_local := d
    distance := dist
    moving_time := mov
    elapsed_time := elap
    total_elevation_gain := elev
    average_watts := (avgWattsCol batch).val r
    weighted_avg_watts := (weightedWattsCol batch).val r
    max_speed := r.max_speed
    distance_km := dkm
    distance_miles := dist.map (· / (160934 / 100))
    elapsed_time_min := elap.map (· / 60)
    moving_time_min := mov.map (· / 60)
    elevation_gain_ft := elev.map (· * (328084 / 100000))
    pace_min_per_km :=
      match dkm with
      | some dk => if dk > 0 then mov.map (fun m => (m / 60) / dk) else none
      | none => none
    speed_kmh :=
      match mov with
      | some m => if m > 0 then dkm.map (fun dk => dk / (m / 3600)) else none
      | none => none
    week := isoWeek d
    year := d.year
    month := monthLabel d
    week_start := weekStartDay e
    day_of_week := dayNameOf e }

/-- `activities_to_dataframe`: convert raw activities to the enriched table.
An empty batch yields the column-less empty frame.  The call fails when no
date column exists at all (`df["start_date_local"]` raises `KeyError`) or when
some record has an unresolvable date (`isocalendar().week.astype(int)` raises
on the resulting NA). -/
def activities_to_dataframe (batch : List RawActivity) : Except String ActivityDF :=
  if batch.isEmpty then .ok dfEmpty
  else
    let hasSDL := colSome batch (·.start_date_local)
    let hasSD := colSome batch (·.start_date)
    if !hasSDL && !hasSD then
      .error "KeyError: start_date_local"
    else if batch.any (fun r => (resolveSDL hasSDL r).isNone) then
      .error "IntCastingNaNError: cannot convert NA to integer"
    else
      .ok
        { rows := batch.map fun r =>
            enrichRow batch hasSD r ((resolveSDL hasSDL r).getD ⟨1970, 1, 1⟩)
          hasType := colSome batch (·.type)
          hasId := colSome batch (·.id)
          hasName := colSome batch (·.name)
          hasElev := (elevationCol batch).present
          hasMaxSpeed := colSome batch (·.max_speed)
          hasAvgWatts := (avgWattsCol batch).present }

/-- The type-group dictionary lookup of `filter_by_type`:
`type_groups.get(activity_type, [activity_type])`. -/
def typeGroups (activity_type : String) : List String :=
  if activity_type = "Ride" then ["Ride", "VirtualRide"]
  else if activity_type = "Run" then ["Run", "VirtualRun"]
  else [activity_type]

/-- The boolean mask cell `df["type"].isin(types)` for one row; a `NaN` type
cell is never a member. -/
def typeIsin (types : List String) (r : Enriched) : Bool :=
  match r.type with
  | some t => types.contains t
  | none => false

/-- `filter_by_type`: keep the rows whose raw type is in the group of
`activity_type`.  Raises `KeyError` when the frame has no `type` column
(as `df["type"]` does, in particular on the column-less empty frame). -/
def filter_by_type (df : ActivityDF) (activity_type : String) : Except String ActivityDF :=
  if !df.hasType then .error "KeyError: type"
  else .ok { df with rows := df.rows.filter (typeIsin (typeGroups activity_type)) }

/-- Sum of a column with pandas `skipna` semantics: `NaN` cells contribute
nothing. -/
def optSum (l : List (Option ℚ)) : ℚ :=
  (l.filterMap id).sum

/-- Mean of a column with pandas `skipna` semantics: `NaN` cells are excluded
from numerator and denominator alike; the mean of an all-`NaN` column is
`NaN`. -/
def optMean (l : List (Option ℚ)) : Option ℚ :=
  let v := l.filterMap id
  if v.isEmpty then none else some (v.sum / v.length)

/-- One output row of `weekly_summary` / `monthly_summary`, keyed by the
grouping key (`week_start`, respectively `month`). -/
structure SummaryRow (κ : Type) where
  key : κ
  total_distance_km : ℚ
  total_distance_miles : ℚ
  total_moving_time_min : ℚ
  total_elevation_m : ℚ
  activity_count : Nat
  avg_pace : Option ℚ
  avg_speed_kmh : Option ℚ
deriving DecidableEq

/-- The aggregate row of one `groupby` group `g` with key `k`:
sums, the non-NA count of `id`, and NA-skipping means. -/
def aggGroup {κ : Type} (k : κ) (g : List Enriched) : SummaryRow κ :=
  { key := k
    total_distance_km := optSum (g.map (·.distance_km))
    total_distance_miles := optSum (g.map (·.distance_miles))
    total_moving_time_min := optSum (g.map (·.moving_time_min))
    total_elevation_m := optSum (g.map (·.total_elevation_gain))
    activity_count := (g.filter fun r => r.id.isSome).length
    avg_pace := optMean (g.map (·.pace_min_per_km))
    avg_speed_kmh := optMean (g.map (·.speed_kmh)) }

/-- `df.groupby(key).agg(...).reset_index().sort_values(key)`: one aggregate
row per distinct key, rows sorted ascending by key. -/
def groupAgg {κ : Type} [DecidableEq κ] (le : κ → κ → Prop) [DecidableRel le]
    (key : Enriched → κ) (rows : List Enriched) : List (SummaryRow κ) :=
  (((rows.map key).dedup).insertionSort le).map fun k =>
    aggGroup k (rows.filter fun r => key r = k)

/-- `weekly_summary`: aggregate the table by `week_start`.  An empty table
yields the empty frame; a non-empty table without an `id` column makes the
`agg` raise `KeyError`. -/
def weekly_summary (df : ActivityDF) : Except String (List (SummaryRow Int)) :=
  if df.rows.isEmpty then .ok []
  else if !df.hasId then .error "KeyError: id"
  else .ok (groupAgg (· ≤ ·) (·.week_start) df.rows)

/-- `monthly_summary`: aggregate the table by the `YYYY-MM` month label,
sorted by pandas string order (lexicographic). -/
def monthly_summary (df : ActivityDF) : Except String (List (SummaryRow String)) :=
  if df.rows.isEmpty then .ok []
  else if !df.hasId then .error "KeyError: id"
  else .ok (groupAgg (· ≤ ·) (·.month) df.rows)

/-- Python `int(q)` on a float: truncation toward zero. -/
def trunc (q : ℚ) : Int :=
  if q < 0 then ⌈q⌉ else ⌊q⌋

/-- `format_pace`: decimal minutes-per-km to `m:ss`; an NA pace renders as
the placeholder.  Seconds are `int((v - minutes) * 60)`, a truncation. -/
def format_pace : Option ℚ → String
  | none => "--:--"
  | some v =>
    let minutes := trunc v
    let seconds := trunc ((v - minutes) * 60)
    toString minutes ++ ":" ++ pad2 seconds

/-- Python `"%.1f"`-style display of a rational, via round-half-to-even at
one decimal as float formatting performs. -/
def roundHalfEven (q : ℚ) : Int :=
  let f := ⌊q⌋
  if q - f < 1 / 2 then f
  else if q - f > 1 / 2 then f + 1
  else if f % 2 = 0 then f else f + 1

/-- `f"{x:.1f}"` for a possibly-NA cell (an NA float renders as `nan`). -/
def fmtOpt1 (o : Option ℚ) : String :=
  match o with
  | none => "nan"
  | some q =>
    let n := roundHalfEven (q * 10)
    (if n < 0 then "-" else "") ++ toString ((n.natAbs : Int) / 10) ++ "." ++
      toString ((n.natAbs : Int) % 10)

/-- `f"{x:.0f}"` for a possibly-NA cell. -/
def fmtOpt0 (o : Option ℚ) : String :=
  match o with
  | none => "nan"
  | some q => toString (roundHalfEven q)

/-- The `f"{hrs}h {mins}m"` / `f"{mins}m"` display of a moving time in
minutes (`hrs = int(mt // 60)`, `mins = int(mt % 60)`). -/
def effortValue (o : Option ℚ) : String :=
  match o with
  | none => "nan"
  | some mt =>
    let hrs := ⌊mt / 60⌋
    let mins := ⌊mt - 60 * ⌊mt / 60⌋⌋
    if hrs > 0 then toString hrs ++ "h " ++ toString mins ++ "m"
    else toString mins ++ "m"

/-- The row selected by `df.loc[df[col].idxmin()]`: pandas `idxmin` skips
`NaN` cells and returns the index of the first occurrence of the minimum;
on a list with no defined cell there is no such row (pandas raises). -/
def idxminBy (f : Enriched → Option ℚ) : List Enriched → Option Enriched
  | [] => none
  | x :: xs =>
    match f x with
    | none => idxminBy f xs
    | some v =>
      match idxminBy f xs with
      | none => some x
      | some y =>
        match f y with
        | some w => if v ≤ w then some x else some y
        | none => some x

/-- The row selected by `df.loc[df[col].idxmax()]`: first occurrence of the
maximum among the defined cells. -/
def idxmaxBy (f : Enriched → Option ℚ) : List Enriched → Option Enriched
  | [] => none
  | x :: xs =>
    match f x with
    | none => idxmaxBy f xs
    | some v =>
      match idxmaxBy f xs with
      | none => some x
      | some y =>
        match f y with
        | some w => if w ≤ v then some x else some y
        | none => some x

/-- One personal-best card: display value, formatted local date, and the
source activity name. -/
structure PBEntry where
  value : String
  date : String
  name : String
deriving DecidableEq

/-- The dict value of `row.get("name", "")`: empty string when the frame has
no `name` column; `nan` stands for the float NA a present column hands over
for a record that lacked the field. -/
def pbName (df : ActivityDF) (r : Enriched) : String :=
  if df.hasName then
    match r.name with
    | some s => s
    | none => "nan"
  else ""

/-- Entry built for `fastest_pace` / `best_5k_pace`. -/
def paceEntry (df : ActivityDF) (r : Enriched) : PBEntry :=
  ⟨format_pace r.pace_min_per_km, formatDMY r.start_date_local, pbName df r⟩

/-- Entry built for `longest_run` / `longest_ride` (`f"{km:.1f} km"`). -/
def distEntry (df : ActivityDF) (r : Enriched) : PBEntry :=
  ⟨fmtOpt1 r.distance_km ++ " km", formatDMY r.start_date_local, pbName df r⟩

/-- Entry built for `most_climbing` (`f"{gain:.0f} m"`). -/
def elevEntry (df : ActivityDF) (r : Enriched) : PBEntry :=
  ⟨fmtOpt0 r.total_elevation_gain ++ " m", formatDMY r.start_date_local, pbName df r⟩

/-- Entry built for `longest_effort`. -/
def effortEntry (df : ActivityDF) (r : Enriched) : PBEntry :=
  ⟨effortValue r.moving_time_min, formatDMY r.start_date_local, pbName df r⟩

/-- Entry built for `fastest_ride` (`f"{kmh:.1f} km/h"`). -/
def speedEntry (df : ActivityDF) (r : Enriched) : PBEntry :=
  ⟨fmtOpt1 r.speed_kmh ++ " km/h", formatDMY r.start_date_local, pbName df r⟩

/-- Entry built for `top_speed`: `max_speed` is in m/s, displayed ×3.6 in
km/h. -/
def topSpeedEntry (df : ActivityDF) (r : Enriched) : PBEntry :=
  ⟨fmtOpt1 (r.max_speed.map (· * (36 / 10))) ++ " km/h", formatDMY r.start_date_local,
    pbName df r⟩

/-- Entry built for `best_avg_power` (`f"{w:.0f} W"`). -/
def powerEntry (df : ActivityDF) (r : Enriched) : PBEntry :=
  ⟨fmtOpt0 r.average_watts ++ " W", formatDMY r.start_date_local, pbName df r⟩

/-- Python dict assignment `pbs[k] = v`: replace in place when the key is
already present, else append. -/
def dictSet (k : String) (v : PBEntry) :
    List (String × PBEntry) → List (String × PBEntry)
  | [] => [(k, v)]
  | (k2, v2) :: rest =>
    if k2 = k then (k, v) :: rest else (k2, v2) :: dictSet k v rest

/-- Dict lookup (first binding of the key). -/
def dictLookup (k : String) : List (String × PBEntry) → Option PBEntry
  | [] => none
  | (k2, v) :: rest => if k2 = k then some v else dictLookup k rest

/-- How many bindings of key `k` a dict holds. -/
def dictCount (k : String) (d : List (String × PBEntry)) : Nat :=
  (d.filter fun p => p.1 = k).length

/-- `runs.dropna(subset=["pace_min_per_km"])`. -/
def validPace (l : List Enriched) : List Enriched :=
  l.filter fun r => r.pace_min_per_km.isSome

/-- Rows of `valid_pace` with `distance_km >= 5.0` (the 5K qualifier). -/
def fiveKQual (l : List Enriched) : List Enriched :=
  (validPace l).filter fun r =>
    match r.distance_km with
    | some dk => decide (dk ≥ 5)
    | none => false

/-- Rows with a defined, strictly positive `total_elevation_gain`
(`dropna` then `> 0`). -/
def elevQual (l : List Enriched) : List Enriched :=
  l.filter fun r =>
    match r.total_elevation_gain with
    | some e => decide (e > 0)
    | none => false

/-- Rows with a defined, strictly positive `max_speed`. -/
def maxSpeedQual (l : List Enriched) : List Enriched :=
  l.filter fun r =>
    match r.max_speed with
    | some v => decide (v > 0)
    | none => false

/-- Rows with defined, strictly positive `average_watts`. -/
def wattsQual (l : List Enriched) : List Enriched :=
  l.filter fun r =>
    match r.average_watts with
    | some w => decide (w > 0)
    | none => false

/-- The run block of `get_personal_bests`, writing `fastest_pace`,
`longest_run`, `most_climbing`, `longest_effort` and `best_5k_pace` into the
dict when `runs` is non-empty.  The two unguarded `idxmax` calls raise when
their column is all-NA. -/
def runsBlock (runs : ActivityDF) (pbs0 : List (String × PBEntry)) :
    Except String (List (String × PBEntry)) :=
  if runs.rows.isEmpty then .ok pbs0
  else
    let pbs1 :=
      match idxminBy (·.pace_min_per_km) (validPace runs.rows) with
      | some fastest_run => dictSet "fastest_pace" (paceEntry runs fastest_run) pbs0
      | none => pbs0
    match idxmaxBy (·.distance_km) runs.rows with
    | none => .error "ValueError: attempt to get argmax of an empty sequence"
    | some longest_run =>
      let pbs2 := dictSet "longest_run" (distEntry runs longest_run) pbs1
      let pbs3 :=
        if runs.hasElev then
          match idxmaxBy (·.total_elevation_gain) (elevQual runs.rows) with
          | some most_climbing =>
            dictSet "most_climbing" (elevEntry runs most_climbing) pbs2
          | none => pbs2
        else pbs2
      match idxmaxBy (·.moving_time_min) runs.rows with
      | none => .error "ValueError: attempt to get argmax of an empty sequence"
      | some longest_time =>
        let pbs4 := dictSet "longest_effort" (effortEntry runs longest_time) pbs3
        let pbs5 :=
          match idxminBy (·.pace_min_per_km) (fiveKQual runs.rows) with
          | some best_5k => dictSet "best_5k_pace" (paceEntry runs best_5k) pbs4
          | none => pbs4
        .ok pbs5

/-- The ride block of `get_personal_bests`, writing `fastest_ride`,
`longest_ride`, `most_climbing`, `top_speed` and `best_avg_power` when
`rides` is non-empty.  The unguarded `idxmax` on `speed_kmh` raises when
every ride speed is NA. -/
def ridesBlock (rides : ActivityDF) (pbs0 : List (String × PBEntry)) :
    Except String (List (String × PBEntry)) :=
  if rides.rows.isEmpty then .ok pbs0
  else
    match idxmaxBy (·.speed_kmh) rides.rows with
    | none => .error "ValueError: attempt to get argmax of an empty sequence"
    | some fastest_ride =>
      let pbs1 := dictSet "fastest_ride" (speedEntry rides fastest_ride) pbs0
      match idxmaxBy (·.distance_km) rides.rows with
      | none => .error "ValueError: attempt to get argmax of an empty sequence"
      | some longest_ride =>
        let pbs2 := dictSet "longest_ride" (distEntry rides longest_ride) pbs1
        let pbs3 :=
          if rides.hasElev then
            match idxmaxBy (·.total_elevation_gain) (elevQual rides.rows) with
            | some most_climbing =>
              dictSet "most_climbing" (elevEntry rides most_climbing) pbs2
            | none => pbs2
          else pbs2
        let pbs4 :=
          if rides.hasMaxSpeed then
            match idxmaxBy (·.max_speed) (maxSpeedQual rides.rows) with
            | some top_speed => dictSet "top_speed" (topSpeedEntry rides top_speed) pbs3
            | none => pbs3
          else pbs3
        let pbs5 :=
          if rides.hasAvgWatts then
            match idxmaxBy (·.average_watts) (wattsQual rides.rows) with
            | some best_power => dictSet "best_avg_power" (powerEntry rides best_power) pbs4
            | none => pbs4
          else pbs4
        .ok pbs5

/-- `show_run = activity_type in ("All", "Run")`. -/
def showRun (activity_type : String) : Bool :=
  activity_type = "All" || activity_type = "Run"

/-- `show_ride = activity_type in ("All", "Ride")`. -/
def showRide (activity_type : String) : Bool :=
  activity_type = "All" || activity_type = "Ride"

/-- `get_personal_bests`: extract the per-category best achievements from the
table, scoped by the activity-type filter. -/
def get_personal_bests (df : ActivityDF) (activity_type : String) :
    Except String (List (String × PBEntry)) :=
  (if showRun activity_type then filter_by_type df "Run" else .ok dfEmpty).bind fun runs =>
    (if showRide activity_type then filter_by_type df "Ride" else .ok dfEmpty).bind fun rides =>
      (runsBlock runs []).bind fun pbs => ridesBlock rides pbs

/-! ### Basic lemmas about the embedding -/

theorem trunc_of_nonneg {q : ℚ} (h : 0 ≤ q) : trunc q = ⌊q⌋ := by
  unfold trunc
  rw [if_neg (not_lt.mpr h)]

theorem enrichRow_distance_km (batch : List RawActivity) (hasSD : Bool)
    (r : RawActivity) (d : DateT) :
    (enrichRow batch hasSD r d).distance_km = ((distanceCol batch).val r).map (· / 1000) :=
  rfl

theorem enrichRow_moving_time (batch : List RawActivity) (hasSD : Bool)
    (r : RawActivity) (d : DateT) :
    (enrichRow batch hasSD r d).moving_time = (movingTimeCol batch).val r :=
  rfl

theorem enrichRow_pace (batch : List RawActivity) (hasSD : Bool)
    (r : RawActivity) (d : DateT) :
    (enrichRow batch hasSD r d).pace_min_per_km =
      match ((distanceCol batch).val r).map (· / 1000) with
      | some dk =>
        if dk > 0 then ((movingTimeCol batch).val r).map (fun m => (m / 60) / dk) else none
      | none => none :=
  rfl

theorem enrichRow_speed (batch : List RawActivity) (hasSD : Bool)
    (r : RawActivity) (d : DateT) :
    (enrichRow batch hasSD r d).speed_kmh =
      match (movingTimeCol batch).val r with
      | some m =>
        if m > 0 then (((distanceCol batch).val r).map (· / 1000)).map (fun dk => dk / (m / 3600))
        else none
      | none => none :=
  rfl

/-- Inversion for a successful `activities_to_dataframe` call: either the
batch was empty, or the rows are the enriched records in order. -/
theorem atd_ok_inv {batch : List RawActivity} {df : ActivityDF}
    (h : activities_to_dataframe batch = .ok df) :
    (batch = [] ∧ df = dfEmpty) ∨
      df.rows = batch.map (fun r =>
        enrichRow batch (colSome batch (·.start_date)) r
          ((resolveSDL (colSome batch (·.start_date_local)) r).getD ⟨1970, 1, 1⟩)) := by
  simp only [activities_to_dataframe] at h
  split at h
  · rename_i hemp
    cases h
    exact Or.inl ⟨List.isEmpty_iff.mp hemp, rfl⟩
  · split at h
    · cases h
    · split at h
      · cases h
      · cases h
        exact Or.inr rfl

/-! ### C2: pace formatting -/

/-- Modelled from the specification words for comparison with the code:
`floor(v)` minutes, then `round((v - floor(v)) * 60)` seconds zero-padded. -/
def formatPaceSpec (v : ℚ) : String :=
  toString ⌊v⌋ ++ ":" ++ pad2 (round ((v - ⌊v⌋) * 60))

/-- C2 counterexample: at `v = 2707/600` (seconds fraction `30.7`), the code
truncates to `"4:30"` while the claim's rounding formula yields `"4:31"`. -/
theorem c2_counterexample :
    format_pace (some (2707 / 600)) = "4:30" ∧ formatPaceSpec (2707 / 600) = "4:31" ∧
      format_pace (some (2707 / 600)) ≠ formatPaceSpec (2707 / 600) := by
  have h1 : (⌊(2707 / 600 : ℚ)⌋ : Int) = 4 := by
    norm_num [Int.floor_eq_iff]
  have h2 : ((2707 / 600 : ℚ) - (4 : Int)) * 60 = 307 / 10 := by norm_num
  have h3 : format_pace (some (2707 / 600)) = "4:30" := by
    show toString (trunc (2707 / 600 : ℚ)) ++ ":" ++
        pad2 (trunc (((2707 / 600 : ℚ) - (trunc (2707 / 600 : ℚ) : Int)) * 60)) = "4:30"
    rw [trunc_of_nonneg (by norm_num), h1, h2, trunc_of_nonneg (by norm_num)]
    have : (⌊(307 / 10 : ℚ)⌋ : Int) = 30 := by norm_num [Int.floor_eq_iff]
    rw [this]
    decide
  have h4 : formatPaceSpec (2707 / 600) = "4:31" := by
    unfold formatPaceSpec
    rw [h1, h2]
    have : round (307 / 10 : ℚ) = 31 := by
      rw [round_eq]
      norm_num [Int.floor_eq_iff]
    rw [this]
    decide
  refine ⟨h3, h4, ?_⟩
  rw [h3, h4]
  decide

/-- C2 (amended): for a defined nonnegative pace the seconds part is the
truncation `floor((v - floor(v)) * 60)`, not a rounding; the undefined pace
renders as the placeholder, and `format_pace(4.5) = "4:30"` still holds. -/
theorem c2_amended :
    (∀ v : ℚ, 0 ≤ v →
        format_pace (some v) = toString ⌊v⌋ ++ ":" ++ pad2 ⌊(v - ⌊v⌋) * 60⌋) ∧
      format_pace none = "--:--" ∧ format_pace (some (9 / 2)) = "4:30" := by
  have hmain : ∀ v : ℚ, 0 ≤ v →
      format_pace (some v) = toString ⌊v⌋ ++ ":" ++ pad2 ⌊(v - ⌊v⌋) * 60⌋ := by
    intro v hv
    show toString (trunc v) ++ ":" ++ pad2 (trunc ((v - (trunc v : Int)) * 60)) = _
    rw [trunc_of_nonneg hv]
    rw [trunc_of_nonneg (mul_nonneg (sub_nonneg.mpr (Int.floor_le v)) (by norm_num))]
  refine ⟨hmain, rfl, ?_⟩
  rw [hmain (9 / 2) (by norm_num)]
  have h1 : (⌊(9 / 2 : ℚ)⌋ : Int) = 4 := by norm_num [Int.floor_eq_iff]
  rw [h1]
  have h2 : ((9 / 2 : ℚ) - (4 : Int)) * 60 = 30 := by norm_num
  rw [h2]
  have h3 : (⌊(30 : ℚ)⌋ : Int) = 30 := by norm_num
  rw [h3]
  decide

/-- C2 witness: the amended formatting law applied at the concrete pace 4.5. -/
theorem c2_amended_witness :
    format_pace (some (9 / 2)) =
      toString ⌊(9 / 2 : ℚ)⌋ ++ ":" ++ pad2 ⌊((9 / 2 : ℚ) - ⌊(9 / 2 : ℚ)⌋) * 60⌋ :=
  c2_amended.1 (9 / 2) (by norm_num)

/-! ### C3: undefined pace and speed on zero distance / zero time -/

/-- C3: in every table built by `activities_to_dataframe`, zero distance
makes the pace undefined and zero moving time makes the speed undefined,
while the positive cases carry the exact quotients; and no zero field fails
the batch — the call succeeds whenever every record carries a local start
date. -/
theorem c3_zero_pace_speed :
    (∀ batch df, activities_to_dataframe batch = .ok df → ∀ r ∈ df.rows,
        (r.distance_km = some 0 → r.pace_min_per_km = none) ∧
        (r.moving_time = some 0 → r.speed_kmh = none) ∧
        (∀ dk m, r.distance_km = some dk → 0 < dk → r.moving_time = some m →
          r.pace_min_per_km = some ((m / 60) / dk)) ∧
        (∀ dk m, r.moving_time = some m → 0 < m → r.distance_km = some dk →
          r.speed_kmh = some (dk / (m / 3600)))) ∧
      ∀ batch : List RawActivity, (∀ r ∈ batch, r.start_date_local.isSome = true) →
        (activities_to_dataframe batch).isOk = true := by
  constructor
  · intro batch df h r hr
    rcases atd_ok_inv h with ⟨_, hdf⟩ | hrows
    · subst hdf
      simp [dfEmpty] at hr
    · rw [hrows] at hr
      obtain ⟨raw, _, hre⟩ := List.mem_map.mp hr
      rw [← hre]
      rw [enrichRow_distance_km, enrichRow_moving_time, enrichRow_pace, enrichRow_speed]
      rcases (distanceCol batch).val raw with _ | x <;>
        rcases (movingTimeCol batch).val raw with _ | m
      · simp
      · simp
      · refine ⟨?_, by simp, ?_, by simp⟩
        · intro hz
          have hx : x / 1000 = 0 := by simpa using hz
          simp [hx]
        · intro dk m2 hdk hpos hm2
          cases hm2
      · refine ⟨?_, ?_, ?_, ?_⟩
        · intro hz
          have hx : x / 1000 = 0 := by simpa using hz
          simp [hx]
        · intro hz
          have hm0 : m = 0 := by simpa using hz
          simp [hm0]
        · intro dk m2 hdk hpos hm2
          have h1 : x / 1000 = dk := by simpa using hdk
          have h2 : m = m2 := by simpa using hm2
          subst h2
          simp [h1, hpos]
        · intro dk m2 hm2 hpos hdk
          have h1 : x / 1000 = dk := by simpa using hdk
          have h2 : m = m2 := by simpa using hm2
          subst h2
          simp [h1, hpos]
  · intro batch hall
    by_cases hemp : batch = []
    · subst hemp
      rfl
    · obtain ⟨r0, hr0⟩ := List.exists_mem_of_ne_nil batch hemp
      have hSDL : colSome batch (·.start_date_local) = true :=
        List.any_eq_true.mpr ⟨r0, hr0, hall r0 hr0⟩
      have hany : (batch.any fun r => (resolveSDL true r).isNone) = false := by
        rw [List.any_eq_false]
        intro r hr
        simp only [resolveSDL, if_pos]
        rw [Bool.not_eq_true, Option.isNone_eq_false_iff]
        exact hall r hr
      simp only [activities_to_dataframe]
      rw [if_neg (by simpa [List.isEmpty_iff] using hemp)]
      rw [hSDL, hany]
      simp [Except.isOk, Except.toBool]

/-- The raw record of the C3 witness: a run with zero distance and zero
moving time. -/
def c3raw : RawActivity :=
  { id := some 1, type := some "Run", start_date_local := some ⟨2024, 1, 1⟩,
    distance := some 0, moving_time := some 0 }

/-- The single-record batch of the C3 witness. -/
def c3batch : List RawActivity := [c3raw]

/-- The enriched row the pipeline produces for `c3raw`. -/
def c3row : Enriched :=
  enrichRow c3batch (colSome c3batch (·.start_date)) c3raw
    ((resolveSDL (colSome c3batch (·.start_date_local)) c3raw).getD ⟨1970, 1, 1⟩)

/-- C3 witness: at the concrete zero-distance zero-time record the batch
succeeds and pace and speed both come out undefined. -/
theorem c3_zero_pace_speed_witness :
    c3row.pace_min_per_km = none ∧ c3row.speed_kmh = none ∧
      (activities_to_dataframe c3batch).isOk = true := by
  have hok : (activities_to_dataframe c3batch).isOk = true :=
    c3_zero_pace_speed.2 c3batch (by decide)
  obtain ⟨df, hdf⟩ : ∃ df, activities_to_dataframe c3batch = .ok df := by
    cases hcase : activities_to_dataframe c3batch
    · rw [hcase] at hok
      cases hok
    · exact ⟨_, rfl⟩
  have hrows : df.rows = [c3row] := by
    rcases atd_ok_inv hdf with ⟨hnil, _⟩ | hr
    · simp [c3batch] at hnil
    · rw [hr]
      rfl
  have hmem : c3row ∈ df.rows := by
    rw [hrows]
    exact List.mem_singleton.mpr rfl
  have hprops := c3_zero_pace_speed.1 c3batch df hdf c3row hmem
  have hdist : c3row.distance_km = some 0 := by
    rw [c3row, enrichRow_distance_km]
    norm_num [c3batch, c3raw, distanceCol, aliasStep, defaultStep, rawCol, colSome]
  have hmov : c3row.moving_time = some 0 := by
    rw [c3row, enrichRow_moving_time]
    norm_num [c3batch, c3raw, movingTimeCol, aliasStep, defaultStep, rawCol, colSome]
  exact ⟨hprops.1 hdist, hprops.2.1 hmov, hok⟩

/-! ### C8: type filtering -/

/-- C8: on a table with a `type` column, filtering by `"Ride"` keeps exactly
the rows typed `Ride` or `VirtualRide`, filtering by `"Run"` keeps exactly
`Run` or `VirtualRun`, any other label keeps exactly its exact matches, and
every filter result is a sublist of the input (input order preserved). -/
theorem c8_filter_families :
    ∀ df : ActivityDF, df.hasType = true →
      (filter_by_type df "Ride" = .ok { df with rows := df.rows.filter (fun r =>
          decide (r.type = some "Ride" ∨ r.type = some "VirtualRide")) }) ∧
      (filter_by_type df "Run" = .ok { df with rows := df.rows.filter (fun r =>
          decide (r.type = some "Run" ∨ r.type = some "VirtualRun")) }) ∧
      (∀ t : String, t ≠ "Ride" → t ≠ "Run" →
        filter_by_type df t = .ok { df with rows := df.rows.filter (fun r =>
          decide (r.type = some t)) }) ∧
      ∀ t res, filter_by_type df t = .ok res → res.rows.Sublist df.rows := by
  intro df ht
  have hopen : ∀ s : String, filter_by_type df s =
      .ok { df with rows := df.rows.filter (typeIsin (typeGroups s)) } := by
    intro s
    unfold filter_by_type
    rw [ht]
    simp
  refine ⟨?_, ?_, ?_, ?_⟩
  · rw [hopen]
    have : df.rows.filter (typeIsin (typeGroups "Ride")) = df.rows.filter fun r =>
        decide (r.type = some "Ride" ∨ r.type = some "VirtualRide") := by
      apply List.filter_congr
      intro r _
      rcases htype : r.type with _ | t
      · simp [typeIsin, htype]
      · simp [typeIsin, htype, typeGroups, List.elem_eq_mem]
    rw [this]
  · rw [hopen]
    have : df.rows.filter (typeIsin (typeGroups "Run")) = df.rows.filter fun r =>
        decide (r.type = some "Run" ∨ r.type = some "VirtualRun") := by
      apply List.filter_congr
      intro r _
      rcases htype : r.type with _ | t
      · simp [typeIsin, htype]
      · simp [typeIsin, htype, typeGroups, List.elem_eq_mem]
    rw [this]
  · intro t h1 h2
    rw [hopen]
    have : df.rows.filter (typeIsin (typeGroups t)) = df.rows.filter fun r =>
        decide (r.type = some t) := by
      apply List.filter_congr
      intro r _
      rcases htype : r.type with _ | s
      · simp [typeIsin, htype, typeGroups, if_neg h1, if_neg h2]
      · simp [typeIsin, htype, typeGroups, if_neg h1, if_neg h2, List.elem_eq_mem]
    rw [this]
  · intro t res h
    rw [hopen] at h
    cases h
    exact List.filter_sublist _

/-- The table of the C8 witness: empty rows, `type` column present. -/
def c8df : ActivityDF := ⟨[], true, false, false, false, false, false⟩

/-- C8 witness: the family characterization applied to the concrete table
for the `"Ride"` family and for the unrecognized label `"Hike"`. -/
theorem c8_filter_families_witness :
    filter_by_type c8df "Ride" = .ok { c8df with rows := c8df.rows.filter (fun r =>
        decide (r.type = some "Ride" ∨ r.type = some "VirtualRide")) } ∧
      filter_by_type c8df "Hike" = .ok { c8df with rows := c8df.rows.filter (fun r =>
        decide (r.type = some "Hike")) } :=
  ⟨(c8_filter_families c8df rfl).1,
    (c8_filter_families c8df rfl).2.2.1 "Hike" (by decide) (by decide)⟩

/-! ### Dictionary lemmas -/

theorem dictLookup_dictSet (k k2 : String) (v : PBEntry) (d : List (String × PBEntry)) :
    dictLookup k (dictSet k2 v d) = if k2 = k then some v else dictLookup k d := by
  induction d with
  | nil => simp [dictSet, dictLookup]
  | cons p rest ih =>
    obtain ⟨k3, v3⟩ := p
    rw [dictSet]
    by_cases h3 : k3 = k2
    · rw [if_pos h3, dictLookup, dictLookup]
      subst h3
      by_cases hk : k3 = k
      · rw [if_pos hk, if_pos hk]
      · rw [if_neg hk, if_neg hk, if_neg hk]
    · rw [if_neg h3, dictLookup, dictLookup]
      by_cases hk : k3 = k
      · rw [if_pos hk, if_pos hk]
        rw [if_neg fun hc => h3 (hk.trans hc.symm)]
      · rw [if_neg hk, if_neg hk, ih]

theorem dictLookup_append (k : String) (d1 d2 : List (String × PBEntry)) :
    dictLookup k (d1 ++ d2) = (dictLookup k d1).or (dictLookup k d2) := by
  induction d1 with
  | nil => simp [dictLookup]
  | cons p rest ih =>
    obtain ⟨k2, v⟩ := p
    by_cases hk : k2 = k
    · simp [dictLookup, hk, Option.or]
    · simp [dictLookup, hk, ih]

theorem dictSet_append {k : String} {v : PBEntry} {d : List (String × PBEntry)}
    (h : dictLookup k d = none) : dictSet k v d = d ++ [(k, v)] := by
  induction d with
  | nil => simp [dictSet]
  | cons p rest ih =>
    obtain ⟨k2, v2⟩ := p
    by_cases hk : k2 = k
    · rw [dictLookup, if_pos hk] at h
      cases h
    · rw [dictLookup, if_neg hk] at h
      simp [dictSet, hk, ih h]

theorem dictCount_append (k : String) (d1 d2 : List (String × PBEntry)) :
    dictCount k (d1 ++ d2) = dictCount k d1 + dictCount k d2 := by
  simp [dictCount, List.filter_append]

theorem dictCount_dictSet (k : String) (v : PBEntry) (d : List (String × PBEntry)) :
    dictCount k (dictSet k v d) =
      if dictLookup k d = none then dictCount k d + 1 else dictCount k d := by
  induction d with
  | nil => simp [dictSet, dictCount, dictLookup]
  | cons p rest ih =>
    obtain ⟨k2, v2⟩ := p
    by_cases hk : k2 = k
    · subst hk
      simp [dictSet, dictCount, dictLookup]
    · rw [dictSet, if_neg hk, dictLookup, if_neg hk]
      rw [dictCount, List.filter_cons, dictCount, List.filter_cons]
      have hdk : (decide ((k2, v2).1 = k)) = false := by
        simp [hk]
      rw [hdk]
      simp only [Bool.false_eq_true, if_false]
      split
      · rw [if_pos (by assumption)] at ih
        simpa [dictCount] using ih
      · rw [if_neg (by assumption)] at ih
        simpa [dictCount] using ih

/-- A key never written keeps count zero. -/
theorem dictCount_dictSet_ne {k k2 : String} (h : k2 ≠ k) (v : PBEntry)
    (d : List (String × PBEntry)) : dictCount k (dictSet k2 v d) = dictCount k d := by
  induction d with
  | nil => simp [dictSet, dictCount, h]
  | cons p rest ih =>
    obtain ⟨k3, v3⟩ := p
    by_cases hk : k3 = k2
    · subst hk
      simp [dictSet, dictCount, List.filter_cons, h]
    · rw [dictSet, if_neg hk]
      rw [dictCount, List.filter_cons, dictCount, List.filter_cons]
      split
      · simpa [dictCount] using ih
      · simpa [dictCount] using ih

/-! ### First-extremum characterization of the idx scans -/

theorem idxminBy_eq_none {f : Enriched → Option ℚ} {l : List Enriched} :
    idxminBy f l = none ↔ ∀ x ∈ l, f x = none := by
  induction l with
  | nil => simp [idxminBy]
  | cons a t ih =>
    rw [idxminBy]
    rcases hfa : f a with _ | v
    · dsimp only
      rw [ih]
      constructor
      · intro h x hx
        rcases List.mem_cons.mp hx with rfl | hx
        · exact hfa
        · exact h x hx
      · intro h x hx
        exact h x (List.mem_cons_of_mem a hx)
    · dsimp only
      apply iff_of_false
      · rcases ht : idxminBy f t with _ | y
        · simp
        · dsimp only
          rcases hfy : f y with _ | w
          · simp
          · dsimp only
            split <;> simp
      · intro hall
        have hcon := hall a (List.mem_cons_self a t)
        rw [hcon] at hfa
        cases hfa

theorem idxmaxBy_eq_none {f : Enriched → Option ℚ} {l : List Enriched} :
    idxmaxBy f l = none ↔ ∀ x ∈ l, f x = none := by
  induction l with
  | nil => simp [idxmaxBy]
  | cons a t ih =>
    rw [idxmaxBy]
    rcases hfa : f a with _ | v
    · dsimp only
      rw [ih]
      constructor
      · intro h x hx
        rcases List.mem_cons.mp hx with rfl | hx
        · exact hfa
        · exact h x hx
      · intro h x hx
        exact h x (List.mem_cons_of_mem a hx)
    · dsimp only
      apply iff_of_false
      · rcases ht : idxmaxBy f t with _ | y
        · simp
        · dsimp only
          rcases hfy : f y with _ | w
          · simp
          · dsimp only
            split <;> simp
      · intro hall
        have hcon := hall a (List.mem_cons_self a t)
        rw [hcon] at hfa
        cases hfa

/-- The record `idxmin` selects carries the minimum of the defined cells and
is the first record of the list attaining it. -/
theorem idxminBy_spec {f : Enriched → Option ℚ} {l : List Enriched} {x : Enriched}
    (h : idxminBy f l = some x) :
    ∃ v, f x = some v ∧ (∀ y ∈ l, ∀ w, f y = some w → v ≤ w) ∧
      l.find? (fun y => decide (f y = some v)) = some x := by
  induction l generalizing x with
  | nil => cases h
  | cons a t ih =>
    rw [idxminBy] at h
    rcases hfa : f a with _ | v
    · rw [hfa] at h
      obtain ⟨v, hv, hmin, hfind⟩ := ih h
      refine ⟨v, hv, ?_, ?_⟩
      · intro y hy w hw
        rcases List.mem_cons.mp hy with rfl | hy
        · rw [hfa] at hw
          cases hw
        · exact hmin y hy w hw
      · rw [List.find?_cons_of_neg _ (by simp [hfa])]
        exact hfind
    · rw [hfa] at h
      rcases ht : idxminBy f t with _ | y
      · rw [ht] at h
        cases h
        refine ⟨v, hfa, ?_, ?_⟩
        · intro y hy w hw
          rcases List.mem_cons.mp hy with rfl | hy
          · rw [hfa] at hw
            cases hw
            exact le_refl _
          · rw [idxminBy_eq_none.mp ht y hy] at hw
            cases hw
        · exact List.find?_cons_of_pos _ (by simp [hfa])
      · rw [ht] at h
        obtain ⟨w0, hw0, hmin, hfind⟩ := ih ht
        dsimp only at h
        rw [hw0] at h
        dsimp only at h
        by_cases hvw : v ≤ w0
        · rw [if_pos hvw] at h
          cases h
          refine ⟨v, hfa, ?_, ?_⟩
          · intro z hz u hu
            rcases List.mem_cons.mp hz with rfl | hz
            · rw [hfa] at hu
              cases hu
              exact le_refl _
            · exact le_trans hvw (hmin z hz u hu)
          · exact List.find?_cons_of_pos _ (by simp [hfa])
        · rw [if_neg hvw] at h
          cases h
          push_neg at hvw
          refine ⟨w0, hw0, ?_, ?_⟩
          · intro z hz u hu
            rcases List.mem_cons.mp hz with rfl | hz
            · rw [hfa] at hu
              cases hu
              exact le_of_lt hvw
            · exact hmin z hz u hu
          · rw [List.find?_cons_of_neg _ ?_]
            · exact hfind
            · simp only [hfa, Option.some.injEq, decide_eq_true_eq]
              intro hc
              rw [hc] at hvw
              exact lt_irrefl _ hvw

/-- The record `idxmax` selects carries the maximum of the defined cells and
is the first record of the list attaining it. -/
theorem idxmaxBy_spec {f : Enriched → Option ℚ} {l : List Enriched} {x : Enriched}
    (h : idxmaxBy f l = some x) :
    ∃ v, f x = some v ∧ (∀ y ∈ l, ∀ w, f y = some w → w ≤ v) ∧
      l.find? (fun y => decide (f y = some v)) = some x := by
  induction l generalizing x with
  | nil => cases h
  | cons a t ih =>
    rw [idxmaxBy] at h
    rcases hfa : f a with _ | v
    · rw [hfa] at h
      obtain ⟨v, hv, hmax, hfind⟩ := ih h
      refine ⟨v, hv, ?_, ?_⟩
      · intro y hy w hw
        rcases List.mem_cons.mp hy with rfl | hy
        · rw [hfa] at hw
          cases hw
        · exact hmax y hy w hw
      · rw [List.find?_cons_of_neg _ (by simp [hfa])]
        exact hfind
    · rw [hfa] at h
      rcases ht : idxmaxBy f t with _ | y
      · rw [ht] at h
        cases h
        refine ⟨v, hfa, ?_, ?_⟩
        · intro y hy w hw
          rcases List.mem_cons.mp hy with rfl | hy
          · rw [hfa] at hw
            cases hw
            exact le_refl _
          · rw [idxmaxBy_eq_none.mp ht y hy] at hw
            cases hw
        · exact List.find?_cons_of_pos _ (by simp [hfa])
      · rw [ht] at h
        obtain ⟨w0, hw0, hmax, hfind⟩ := ih ht
        dsimp only at h
        rw [hw0] at h
        dsimp only at h
        by_cases hvw : w0 ≤ v
        · rw [if_pos hvw] at h
          cases h
          refine ⟨v, hfa, ?_, ?_⟩
          · intro z hz u hu
            rcases List.mem_cons.mp hz with rfl | hz
            · rw [hfa] at hu
              cases hu
              exact le_refl _
            · exact le_trans (hmax z hz u hu) hvw
          · exact List.find?_cons_of_pos _ (by simp [hfa])
        · rw [if_neg hvw] at h
          cases h
          push_neg at hvw
          refine ⟨w0, hw0, ?_, ?_⟩
          · intro z hz u hu
            rcases List.mem_cons.mp hz with rfl | hz
            · rw [hfa] at hu
              cases hu
              exact le_of_lt hvw
            · exact hmax z hz u hu
          · rw [List.find?_cons_of_neg _ ?_]
            · exact hfind
            · simp only [hfa, Option.some.injEq, decide_eq_true_eq]
              intro hc
              rw [hc] at hvw
              exact lt_irrefl _ hvw

/-! ### Closed forms for the personal-best selections -/

/-- The singleton (or empty) dict fragment a conditional write contributes. -/
def optEntry (k : String) (o : Option PBEntry) : List (String × PBEntry) :=
  match o with
  | some e => [(k, e)]
  | none => []

/-- The `fastest_pace` write of the run block, as an optional entry. -/
def fpOpt (runs : ActivityDF) : Option PBEntry :=
  (idxminBy (·.pace_min_per_km) (validPace runs.rows)).map (paceEntry runs)

/-- The `longest_run` write of the run block. -/
def lrOpt (runs : ActivityDF) : Option PBEntry :=
  (idxmaxBy (·.distance_km) runs.rows).map (distEntry runs)

/-- The `most_climbing` write of the run block. -/
def mcRunOpt (runs : ActivityDF) : Option PBEntry :=
  if runs.hasElev then
    (idxmaxBy (·.total_elevation_gain) (elevQual runs.rows)).map (elevEntry runs)
  else none

/-- The `longest_effort` write of the run block. -/
def leOpt (runs : ActivityDF) : Option PBEntry :=
  (idxmaxBy (·.moving_time_min) runs.rows).map (effortEntry runs)

/-- The `best_5k_pace` write of the run block. -/
def b5kOpt (runs : ActivityDF) : Option PBEntry :=
  (idxminBy (·.pace_min_per_km) (fiveKQual runs.rows)).map (paceEntry runs)

/-- The `fastest_ride` write of the ride block. -/
def frOpt (rides : ActivityDF) : Option PBEntry :=
  (idxmaxBy (·.speed_kmh) rides.rows).map (speedEntry rides)

/-- The `longest_ride` write of the ride block. -/
def lrdOpt (rides : ActivityDF) : Option PBEntry :=
  (idxmaxBy (·.distance_km) rides.rows).map (distEntry rides)

/-- The `most_climbing` write of the ride block. -/
def mcRideOpt (rides : ActivityDF) : Option PBEntry :=
  if rides.hasElev then
    (idxmaxBy (·.total_elevation_gain) (elevQual rides.rows)).map (elevEntry rides)
  else none

/-- The `top_speed` write of the ride block. -/
def tsOpt (rides : ActivityDF) : Option PBEntry :=
  if rides.hasMaxSpeed then
    (idxmaxBy (·.max_speed) (maxSpeedQual rides.rows)).map (topSpeedEntry rides)
  else none

/-- The `best_avg_power` write of the ride block. -/
def bapOpt (rides : ActivityDF) : Option PBEntry :=
  if rides.hasAvgWatts then
    (idxmaxBy (·.average_watts) (wattsQual rides.rows)).map (powerEntry rides)
  else none

theorem dictLookup_optEntry (k k2 : String) (o : Option PBEntry) :
    dictLookup k (optEntry k2 o) = if k2 = k then o else none := by
  rcases o with _ | e
  · simp [optEntry, dictLookup]
  · simp [optEntry, dictLookup]

/-- The run block on an empty starting dict produces exactly its five
optional entries, in write order. -/
theorem runsBlock_shape {runs : ActivityDF} {pbs : List (String × PBEntry)}
    (h : runsBlock runs [] = .ok pbs) :
    pbs = optEntry "fastest_pace" (fpOpt runs) ++ optEntry "longest_run" (lrOpt runs) ++
      optEntry "most_climbing" (mcRunOpt runs) ++ optEntry "longest_effort" (leOpt runs) ++
      optEntry "best_5k_pace" (b5kOpt runs) := by
  simp only [runsBlock] at h
  by_cases hemp : runs.rows.isEmpty
  · rw [if_pos hemp] at h
    cases h
    have hrows := List.isEmpty_iff.mp hemp
    simp [fpOpt, lrOpt, mcRunOpt, leOpt, b5kOpt, hrows, validPace, fiveKQual, elevQual,
      idxminBy, idxmaxBy, optEntry]
  · rw [if_neg hemp] at h
    rcases hlr : idxmaxBy (·.distance_km) runs.rows with _ | lr
    · rw [hlr] at h
      exact absurd h (by simp)
    · rw [hlr] at h
      dsimp only at h
      rcases hle : idxmaxBy (·.moving_time_min) runs.rows with _ | lt
      · rw [hle] at h
        exact absurd h (by simp)
      · rw [hle] at h
        dsimp only at h
        rw [Except.ok.injEq] at h
        subst h
        rcases hfp : idxminBy (·.pace_min_per_km) (validPace runs.rows) with _ | fast <;>
          rcases h5k : idxminBy (·.pace_min_per_km) (fiveKQual runs.rows) with _ | b5 <;>
            rcases hmc : idxmaxBy (·.total_elevation_gain) (elevQual runs.rows) with _ | mc <;>
              rcases helev : runs.hasElev with _ | _ <;>
                simp [fpOpt, lrOpt, mcRunOpt, leOpt, b5kOpt, hfp, hlr, hle, h5k, hmc, helev,
                  optEntry, dictSet]

/-- The ride block appends its entries to the incoming dict, overwriting an
existing `most_climbing` binding in place; the four keys it appends fresh
must be absent from the incoming dict. -/
theorem ridesBlock_shape {rides : ActivityDF} {pbs0 pbs : List (String × PBEntry)}
    (h : ridesBlock rides pbs0 = .ok pbs)
    (hfr : dictLookup "fastest_ride" pbs0 = none)
    (hlrd : dictLookup "longest_ride" pbs0 = none)
    (hts : dictLookup "top_speed" pbs0 = none)
    (hbap : dictLookup "best_avg_power" pbs0 = none) :
    pbs = (match mcRideOpt rides with
        | some e => dictSet "most_climbing" e
            (pbs0 ++ optEntry "fastest_ride" (frOpt rides) ++
              optEntry "longest_ride" (lrdOpt rides))
        | none => pbs0 ++ optEntry "fastest_ride" (frOpt rides) ++
            optEntry "longest_ride" (lrdOpt rides)) ++
      optEntry "top_speed" (tsOpt rides) ++ optEntry "best_avg_power" (bapOpt rides) := by
  simp only [ridesBlock] at h
  by_cases hemp : rides.rows.isEmpty
  · rw [if_pos hemp] at h
    cases h
    have hrows := List.isEmpty_iff.mp hemp
    simp [frOpt, lrdOpt, mcRideOpt, tsOpt, bapOpt, hrows, elevQual, maxSpeedQual, wattsQual,
      idxmaxBy, optEntry]
  · rw [if_neg hemp] at h
    rcases hfr2 : idxmaxBy (·.speed_kmh) rides.rows with _ | frx
    · rw [hfr2] at h
      exact absurd h (by simp)
    · rw [hfr2] at h
      dsimp only at h
      rcases hlr2 : idxmaxBy (·.distance_km) rides.rows with _ | lrx
      · rw [hlr2] at h
        exact absurd h (by simp)
      · rw [hlr2] at h
        dsimp only at h
        rw [Except.ok.injEq] at h
        subst h
        rw [dictSet_append hfr]
        rw [dictSet_append (show dictLookup "longest_ride"
            (pbs0 ++ [("fastest_ride", speedEntry rides frx)]) = none by
          simp [dictLookup_append, hlrd, dictLookup])]
        rcases helev : rides.hasElev with _ | _ <;>
          rcases hmc : idxmaxBy (·.total_elevation_gain) (elevQual rides.rows) with _ | mc <;>
            rcases hms : rides.hasMaxSpeed with _ | _ <;>
              rcases hmsq : idxmaxBy (·.max_speed) (maxSpeedQual rides.rows) with _ | tsx <;>
                rcases hwt : rides.hasAvgWatts with _ | _ <;>
                  rcases hwq : idxmaxBy (·.average_watts) (wattsQual rides.rows)
                    with _ | bpx <;>
                    simp [frOpt, lrdOpt, mcRideOpt, tsOpt, bapOpt, hfr2, hlr2, helev, hmc,
                      hms, hmsq, hwt, hwq, optEntry, dictSet_append, dictLookup_append,
                      dictLookup_dictSet, dictLookup, hts, hbap, List.append_assoc]

/-- The run-family table `get_personal_bests` scans: the `"Run"` filter of
the input when the filter shows runs, else the empty frame. -/
def runsDF (df : ActivityDF) (t : String) : ActivityDF :=
  if showRun t then { df with rows := df.rows.filter (typeIsin (typeGroups "Run")) }
  else dfEmpty

/-- The ride-family table `get_personal_bests` scans. -/
def ridesDF (df : ActivityDF) (t : String) : ActivityDF :=
  if showRide t then { df with rows := df.rows.filter (typeIsin (typeGroups "Ride")) }
  else dfEmpty

theorem runsArm_eq {df : ActivityDF} (t : String) (ht : df.hasType = true) :
    (if showRun t then filter_by_type df "Run" else .ok dfEmpty) = .ok (runsDF df t) := by
  unfold runsDF
  rcases hsr : showRun t
  · simp
  · simp only [if_true]
    unfold filter_by_type
    rw [ht]
    simp

theorem ridesArm_eq {df : ActivityDF} (t : String) (ht : df.hasType = true) :
    (if showRide t then filter_by_type df "Ride" else .ok dfEmpty) = .ok (ridesDF df t) := by
  unfold ridesDF
  rcases hsr : showRide t
  · simp
  · simp only [if_true]
    unfold filter_by_type
    rw [ht]
    simp

/-- Inversion of a successful `get_personal_bests` call into its four
stages. -/
theorem gpb_ok_inv {df : ActivityDF} {t : String} {pbs : List (String × PBEntry)}
    (h : get_personal_bests df t = .ok pbs) :
    ∃ runs rides pbs1,
      (if showRun t then filter_by_type df "Run" else .ok dfEmpty) = .ok runs ∧
      (if showRide t then filter_by_type df "Ride" else .ok dfEmpty) = .ok rides ∧
      runsBlock runs [] = .ok pbs1 ∧ ridesBlock rides pbs1 = .ok pbs := by
  unfold get_personal_bests at h
  rcases h1 : (if showRun t then filter_by_type df "Run" else .ok dfEmpty) with e | runs
  · rw [h1] at h
    exact absurd h (by simp [Except.bind])
  · rw [h1] at h
    simp only [Except.bind] at h
    rcases h2 : (if showRide t then filter_by_type df "Ride" else .ok dfEmpty) with e | rides
    · rw [h2] at h
      exact absurd h (by simp [Except.bind])
    · rw [h2] at h
      simp only [Except.bind] at h
      rcases h3 : runsBlock runs [] with e | pbs1
      · rw [h3] at h
        exact absurd h (by simp [Except.bind])
      · rw [h3] at h
        simp only [Except.bind] at h
        exact ⟨runs, rides, pbs1, rfl, rfl, h3, h⟩

/-- Master characterization: each category of a successful
`get_personal_bests` result reads back as its closed-form selection, with
`most_climbing` resolving to the ride-side write when present, else the
run-side one. -/
theorem gpb_lookups {df : ActivityDF} {t : String} {pbs : List (String × PBEntry)}
    (ht : df.hasType = true) (h : get_personal_bests df t = .ok pbs) :
    dictLookup "fastest_pace" pbs = fpOpt (runsDF df t) ∧
    dictLookup "longest_run" pbs = lrOpt (runsDF df t) ∧
    dictLookup "longest_effort" pbs = leOpt (runsDF df t) ∧
    dictLookup "best_5k_pace" pbs = b5kOpt (runsDF df t) ∧
    dictLookup "most_climbing" pbs = (mcRideOpt (ridesDF df t)).or (mcRunOpt (runsDF df t)) ∧
    dictLookup "fastest_ride" pbs = frOpt (ridesDF df t) ∧
    dictLookup "longest_ride" pbs = lrdOpt (ridesDF df t) ∧
    dictLookup "top_speed" pbs = tsOpt (ridesDF df t) ∧
    dictLookup "best_avg_power" pbs = bapOpt (ridesDF df t) := by
  obtain ⟨runs, rides, pbs1, h1, h2, h3, h4⟩ := gpb_ok_inv h
  rw [runsArm_eq t ht, Except.ok.injEq] at h1
  rw [ridesArm_eq t ht, Except.ok.injEq] at h2
  subst h1
  subst h2
  have hshape1 := runsBlock_shape h3
  subst hshape1
  have hpbs := ridesBlock_shape h4
    (by simp [dictLookup_append, dictLookup_optEntry])
    (by simp [dictLookup_append, dictLookup_optEntry])
    (by simp [dictLookup_append, dictLookup_optEntry])
    (by simp [dictLookup_append, dictLookup_optEntry])
  subst hpbs
  rcases hmcr : mcRideOpt (ridesDF df t) with _ | emc <;>
    simp [hmcr, dictLookup_append, dictLookup_optEntry, dictLookup_dictSet]

/-! ### C6: stable first-occurrence tie-breaking -/

/-- `r` holds the minimum defined value of `f` on `l` and is the first
element of `l` attaining it. -/
def firstMinWitness (f : Enriched → Option ℚ) (l : List Enriched) (r : Enriched) : Prop :=
  ∃ v, f r = some v ∧ (∀ y ∈ l, ∀ w, f y = some w → v ≤ w) ∧
    l.find? (fun y => decide (f y = some v)) = some r

/-- `r` holds the maximum defined value of `f` on `l` and is the first
element of `l` attaining it. -/
def firstMaxWitness (f : Enriched → Option ℚ) (l : List Enriched) (r : Enriched) : Prop :=
  ∃ v, f r = some v ∧ (∀ y ∈ l, ∀ w, f y = some w → w ≤ v) ∧
    l.find? (fun y => decide (f y = some v)) = some r

/-- The nine-fold stable-selection property of one `get_personal_bests`
result: every surfaced category is sourced from the first record, in input
order, attaining the category extremum over its qualifying records. -/
def C6Concl (df : ActivityDF) (t : String) (pbs : List (String × PBEntry)) : Prop :=
      (∀ e, dictLookup "fastest_pace" pbs = some e → ∃ r,
        e = paceEntry (runsDF df t) r ∧
        firstMinWitness (·.pace_min_per_km) (validPace (runsDF df t).rows) r) ∧
      (∀ e, dictLookup "longest_run" pbs = some e → ∃ r,
        e = distEntry (runsDF df t) r ∧
        firstMaxWitness (·.distance_km) (runsDF df t).rows r) ∧
      (∀ e, dictLookup "longest_effort" pbs = some e → ∃ r,
        e = effortEntry (runsDF df t) r ∧
        firstMaxWitness (·.moving_time_min) (runsDF df t).rows r) ∧
      (∀ e, dictLookup "best_5k_pace" pbs = some e → ∃ r,
        e = paceEntry (runsDF df t) r ∧
        firstMinWitness (·.pace_min_per_km) (fiveKQual (runsDF df t).rows) r) ∧
      (∀ e, dictLookup "most_climbing" pbs = some e →
        (∃ r, e = elevEntry (ridesDF df t) r ∧
          firstMaxWitness (·.total_elevation_gain) (elevQual (ridesDF df t).rows) r) ∨
        (∃ r, e = elevEntry (runsDF df t) r ∧
          firstMaxWitness (·.total_elevation_gain) (elevQual (runsDF df t).rows) r)) ∧
      (∀ e, dictLookup "fastest_ride" pbs = some e → ∃ r,
        e = speedEntry (ridesDF df t) r ∧
        firstMaxWitness (·.speed_kmh) (ridesDF df t).rows r) ∧
      (∀ e, dictLookup "longest_ride" pbs = some e → ∃ r,
        e = distEntry (ridesDF df t) r ∧
        firstMaxWitness (·.distance_km) (ridesDF df t).rows r) ∧
      (∀ e, dictLookup "top_speed" pbs = some e → ∃ r,
        e = topSpeedEntry (ridesDF df t) r ∧
        firstMaxWitness (·.max_speed) (maxSpeedQual (ridesDF df t).rows) r) ∧
      (∀ e, dictLookup "best_avg_power" pbs = some e → ∃ r,
        e = powerEntry (ridesDF df t) r ∧
        firstMaxWitness (·.average_watts) (wattsQual (ridesDF df t).rows) r)

/-- C6: every surfaced personal-best category of `get_personal_bests` is
sourced from the first record, in input order, attaining the category
extremum over its qualifying records — ties go to the earlier record, for
all nine categories. -/
theorem c6_first_occurrence_ties :
    ∀ (df : ActivityDF) (t : String) (pbs : List (String × PBEntry)),
      df.hasType = true → get_personal_bests df t = .ok pbs → C6Concl df t pbs := by
  intro df t pbs ht h
  obtain ⟨hfp, hlr, hle, h5k, hmc, hfr, hlrd, hts, hbap⟩ := gpb_lookups ht h
  refine ⟨?_, ?_, ?_, ?_, ?_, ?_, ?_, ?_, ?_⟩
  · intro e he
    rw [hfp] at he
    unfold fpOpt at he
    rw [Option.map_eq_some'] at he
    obtain ⟨r, hr, hre⟩ := he
    obtain ⟨v, hv, hmin, hfind⟩ := idxminBy_spec hr
    exact ⟨r, hre.symm, v, hv, hmin, hfind⟩
  · intro e he
    rw [hlr] at he
    unfold lrOpt at he
    rw [Option.map_eq_some'] at he
    obtain ⟨r, hr, hre⟩ := he
    obtain ⟨v, hv, hmax, hfind⟩ := idxmaxBy_spec hr
    exact ⟨r, hre.symm, v, hv, hmax, hfind⟩
  · intro e he
    rw [hle] at he
    unfold leOpt at he
    rw [Option.map_eq_some'] at he
    obtain ⟨r, hr, hre⟩ := he
    obtain ⟨v, hv, hmax, hfind⟩ := idxmaxBy_spec hr
    exact ⟨r, hre.symm, v, hv, hmax, hfind⟩
  · intro e he
    rw [h5k] at he
    unfold b5kOpt at he
    rw [Option.map_eq_some'] at he
    obtain ⟨r, hr, hre⟩ := he
    obtain ⟨v, hv, hmin, hfind⟩ := idxminBy_spec hr
    exact ⟨r, hre.symm, v, hv, hmin, hfind⟩
  · intro e he
    rw [hmc] at he
    rcases hmcr : mcRideOpt (ridesDF df t) with _ | emc
    · rw [hmcr] at he
      simp only [Option.or] at he
      right
      unfold mcRunOpt at he
      split at he
      · rw [Option.map_eq_some'] at he
        obtain ⟨r, hr, hre⟩ := he
        obtain ⟨v, hv, hmax, hfind⟩ := idxmaxBy_spec hr
        exact ⟨r, hre.symm, v, hv, hmax, hfind⟩
      · cases he
    · rw [hmcr] at he
      simp only [Option.or, Option.some.injEq] at he
      subst he
      left
      unfold mcRideOpt at hmcr
      split at hmcr
      · rw [Option.map_eq_some'] at hmcr
        obtain ⟨r, hr, hre⟩ := hmcr
        obtain ⟨v, hv, hmax, hfind⟩ := idxmaxBy_spec hr
        exact ⟨r, hre.symm, v, hv, hmax, hfind⟩
      · cases hmcr
  · intro e he
    rw [hfr] at he
    unfold frOpt at he
    rw [Option.map_eq_some'] at he
    obtain ⟨r, hr, hre⟩ := he
    obtain ⟨v, hv, hmax, hfind⟩ := idxmaxBy_spec hr
    exact ⟨r, hre.symm, v, hv, hmax, hfind⟩
  · intro e he
    rw [hlrd] at he
    unfold lrdOpt at he
    rw [Option.map_eq_some'] at he
    obtain ⟨r, hr, hre⟩ := he
    obtain ⟨v, hv, hmax, hfind⟩ := idxmaxBy_spec hr
    exact ⟨r, hre.symm, v, hv, hmax, hfind⟩
  · intro e he
    rw [hts] at he
    unfold tsOpt at he
    split at he
    · rw [Option.map_eq_some'] at he
      obtain ⟨r, hr, hre⟩ := he
      obtain ⟨v, hv, hmax, hfind⟩ := idxmaxBy_spec hr
      exact ⟨r, hre.symm, v, hv, hmax, hfind⟩
    · cases he
  · intro e he
    rw [hbap] at he
    unfold bapOpt at he
    split at he
    · rw [Option.map_eq_some'] at he
      obtain ⟨r, hr, hre⟩ := he
      obtain ⟨v, hv, hmax, hfind⟩ := idxmaxBy_spec hr
      exact ⟨r, hre.symm, v, hv, hmax, hfind⟩
    · cases he

/-- A successful `Except` computation equals `ok` of its extracted value. -/
theorem exceptOkEq {α : Type} (e : Except String α) (d : α) (h : e.isOk = true) :
    e = .ok (e.toOption.getD d) := by
  cases e
  · cases h
  · rfl

/-- First run of the C6 witness batch: 1 km in 300 s, pace 5:00 min/km. -/
def c6rowA : Enriched :=
  { id := some 1, name := some "A", type := some "Run",
    start_date := some ⟨2024, 1, 1⟩, start_date_local := ⟨2024, 1, 1⟩,
    distance := some 1000, moving_time := some 300, elapsed_time := some 300,
    total_elevation_gain := some 0, average_watts := none, weighted_avg_watts := none,
    max_speed := none, distance_km := some 1, distance_miles := some (50000 / 80467),
    elapsed_time_min := some 5, moving_time_min := some 5, elevation_gain_ft := some 0,
    pace_min_per_km := some 5, speed_kmh := some 12, week := 1, year := 2024,
    month := "2024-01", week_start := 19723, day_of_week := "Monday" }

/-- Second run of the C6 witness batch: identical metrics, later in input
order. -/
def c6rowB : Enriched :=
  { c6rowA with id := some 2, name := some "B" }

/-- The C6 witness table: two equal-pace runs. -/
def c6df : ActivityDF := ⟨[c6rowA, c6rowB], true, true, true, true, false, false⟩

/-- The personal bests computed for the C6 witness table. -/
def c6pbs : List (String × PBEntry) :=
  (get_personal_bests c6df "All").toOption.getD []

/-- C6 witness: the stable-selection property holds at the concrete
two-equal-runs table. -/
theorem c6_first_occurrence_ties_witness : C6Concl c6df "All" c6pbs :=
  c6_first_occurrence_ties c6df "All" c6pbs rfl
    (exceptOkEq (get_personal_bests c6df "All") [] (by decide))

/-! ### C9: the most_climbing key is shared and the ride block wins -/

theorem dictCount_optEntry (k k2 : String) (o : Option PBEntry) :
    dictCount k (optEntry k2 o) =
      if k2 = k then (if o.isSome then 1 else 0) else 0 := by
  rcases o with _ | e <;> by_cases hk : k2 = k <;>
    simp [optEntry, dictCount, List.filter_cons, hk]

theorem elevQual_isSome {l : List Enriched} {x : Enriched} (hx : x ∈ elevQual l) :
    x.total_elevation_gain.isSome = true := by
  unfold elevQual at hx
  have hpred := (List.mem_filter.mp hx).2
  rcases hgain : x.total_elevation_gain with _ | v
  · rw [hgain] at hpred
    simp at hpred
  · rfl

/-- A non-empty qualifying list always yields a selection (its cells are all
defined). -/
theorem idxmaxBy_elevQual_some {l : List Enriched} (hne : elevQual l ≠ []) :
    ∃ r, idxmaxBy (·.total_elevation_gain) (elevQual l) = some r := by
  rcases hcase : idxmaxBy (·.total_elevation_gain) (elevQual l) with _ | r
  · exfalso
    obtain ⟨x, hx⟩ := List.exists_mem_of_ne_nil _ hne
    have hnone := idxmaxBy_eq_none.mp hcase x hx
    have hsome := elevQual_isSome hx
    rw [hnone] at hsome
    cases hsome
  · exact ⟨r, rfl⟩

/-- C9: with the `"All"` filter, a qualifying run-side climb and a
qualifying ride-side climb produce exactly one `most_climbing` binding, and
its value is built from the first ride attaining the maximal elevation gain
(the run block's entry is overwritten, not reported alongside). -/
theorem c9_most_climbing_overwrite :
    ∀ (df : ActivityDF) (pbs : List (String × PBEntry)),
      df.hasType = true → df.hasElev = true →
      get_personal_bests df "All" = .ok pbs →
      elevQual (runsDF df "All").rows ≠ [] →
      elevQual (ridesDF df "All").rows ≠ [] →
      dictCount "most_climbing" pbs = 1 ∧
      ∃ r, dictLookup "most_climbing" pbs = some (elevEntry (ridesDF df "All") r) ∧
        firstMaxWitness (·.total_elevation_gain) (elevQual (ridesDF df "All").rows) r := by
  intro df pbs ht helev h hrq hriq
  have hridesElev : (ridesDF df "All").hasElev = true := by
    simp [ridesDF, showRide, helev]
  have hrunsElev : (runsDF df "All").hasElev = true := by
    simp [runsDF, showRun, helev]
  obtain ⟨r, hr⟩ := idxmaxBy_elevQual_some hriq
  obtain ⟨rr, hrr⟩ := idxmaxBy_elevQual_some hrq
  have hmcrOpt : mcRideOpt (ridesDF df "All") = some (elevEntry (ridesDF df "All") r) := by
    unfold mcRideOpt
    rw [hridesElev]
    simp [hr]
  have hmcRunOpt : mcRunOpt (runsDF df "All") = some (elevEntry (runsDF df "All") rr) := by
    unfold mcRunOpt
    rw [hrunsElev]
    simp [hrr]
  constructor
  · obtain ⟨runs, rides, pbs1, h1, h2, h3, h4⟩ := gpb_ok_inv h
    rw [runsArm_eq _ ht, Except.ok.injEq] at h1
    rw [ridesArm_eq _ ht, Except.ok.injEq] at h2
    subst h1
    subst h2
    have hshape1 := runsBlock_shape h3
    subst hshape1
    have hpbs := ridesBlock_shape h4
      (by simp [dictLookup_append, dictLookup_optEntry])
      (by simp [dictLookup_append, dictLookup_optEntry])
      (by simp [dictLookup_append, dictLookup_optEntry])
      (by simp [dictLookup_append, dictLookup_optEntry])
    subst hpbs
    rw [hmcrOpt]
    simp [dictCount_append, dictCount_optEntry, dictCount_dictSet, dictLookup_append,
      dictLookup_optEntry, hmcRunOpt]
  · obtain ⟨_, _, _, _, hmcL, _, _, _, _⟩ := gpb_lookups ht h
    rw [hmcrOpt] at hmcL
    refine ⟨r, by simp [hmcL, Option.or], ?_⟩
    obtain ⟨v, hv, hmax, hfind⟩ := idxmaxBy_spec hr
    exact ⟨v, hv, hmax, hfind⟩

/-- The run of the C9 witness table: 50 m of climbing. -/
def c9runRow : Enriched :=
  { id := some 1, name := some "Hill Run", type := some "Run",
    start_date := some ⟨2024, 2, 5⟩, start_date_local := ⟨2024, 2, 5⟩,
    distance := some 10000, moving_time := some 3000, elapsed_time := some 3000,
    total_elevation_gain := some 50, average_watts := none, weighted_avg_watts := none,
    max_speed := none, distance_km := some 10, distance_miles := some (500000 / 80467),
    elapsed_time_min := some 50, moving_time_min := some 50, elevation_gain_ft := some 164,
    pace_min_per_km := some 5, speed_kmh := some 12, week := 6, year := 2024,
    month := "2024-02", week_start := 19758, day_of_week := "Monday" }

/-- The ride of the C9 witness table: 100 m of climbing, defined speed. -/
def c9rideRow : Enriched :=
  { c9runRow with
    id := some 2, name := some "Hill Ride", type := some "Ride",
    distance := some 20000, distance_km := some 20, moving_time := some 2400,
    moving_time_min := some 40, elapsed_time := some 2400, elapsed_time_min := some 40,
    total_elevation_gain := some 100, pace_min_per_km := some 2, speed_kmh := some 30 }

/-- The C9 witness table: one qualifying run climb and one qualifying ride
climb. -/
def c9df : ActivityDF := ⟨[c9runRow, c9rideRow], true, true, true, true, false, false⟩

/-- The personal bests computed for the C9 witness table. -/
def c9pbs : List (String × PBEntry) :=
  (get_personal_bests c9df "All").toOption.getD []

/-- C9 witness: the overwrite behaviour at the concrete run-plus-ride
table. -/
theorem c9_most_climbing_overwrite_witness :
    dictCount "most_climbing" c9pbs = 1 ∧
      ∃ r, dictLookup "most_climbing" c9pbs = some (elevEntry (ridesDF c9df "All") r) ∧
        firstMaxWitness (·.total_elevation_gain) (elevQual (ridesDF c9df "All").rows) r :=
  c9_most_climbing_overwrite c9df c9pbs rfl rfl
    (exceptOkEq (get_personal_bests c9df "All") [] (by decide)) (by decide) (by decide)

/-! ### C10: the unguarded fastest_ride scan raises on all-undefined speeds -/

/-- The raw ride of the C10 batch: positive distance, zero moving time, so
its derived speed is undefined. -/
def c10ride : RawActivity :=
  { id := some 1, name := some "Stuck Ride", type := some "Ride",
    start_date_local := some ⟨2024, 1, 1⟩, distance := some 1000, moving_time := some 0 }

/-- The C10 batch: a single zero-moving-time ride. -/
def c10batch : List RawActivity := [c10ride]

/-- The enriched row the pipeline produces for `c10ride`. -/
def c10row : Enriched :=
  enrichRow c10batch (colSome c10batch (·.start_date)) c10ride
    ((resolveSDL (colSome c10batch (·.start_date_local)) c10ride).getD ⟨1970, 1, 1⟩)

/-- The table `activities_to_dataframe` builds from the C10 batch. -/
def c10df : ActivityDF := ⟨[c10row], true, true, true, true, false, false⟩

/-- A run with undefined pace (zero distance), for the guarded contrast. -/
def c10runRow : Enriched :=
  { id := some 1, name := some "Zero Distance Run", type := some "Run",
    start_date := some ⟨2024, 1, 1⟩, start_date_local := ⟨2024, 1, 1⟩,
    distance := some 0, moving_time := some 600, elapsed_time := some 600,
    total_elevation_gain := some 0, average_watts := none, weighted_avg_watts := none,
    max_speed := none, distance_km := some 0, distance_miles := some 0,
    elapsed_time_min := some 10, moving_time_min := some 10, elevation_gain_ft := some 0,
    pace_min_per_km := none, speed_kmh := some 0, week := 1, year := 2024,
    month := "2024-01", week_start := 19723, day_of_week := "Monday" }

/-- The table of the guarded contrast: one run with undefined pace. -/
def c10runDF : ActivityDF := ⟨[c10runRow], true, true, true, true, false, false⟩

/-- C10: the batch with a single zero-moving-time ride passes
`activities_to_dataframe`, but `get_personal_bests` then fails on the
`idxmax` of the all-undefined `speed_kmh` column instead of omitting
`fastest_ride`; by contrast the guarded `fastest_pace` category is simply
omitted when every run pace is undefined, with the call succeeding. -/
theorem c10_unguarded_fastest_ride :
    activities_to_dataframe c10batch = .ok c10df ∧
      (get_personal_bests c10df "All").isOk = false ∧
      (get_personal_bests c10runDF "All").isOk = true ∧
      dictLookup "fastest_pace" ((get_personal_bests c10runDF "All").toOption.getD []) =
        none :=
  ⟨rfl, by decide, by decide, by decide⟩

/-! ### C1: behaviour on empty input -/

/-- C1 counterexample: `activities_to_dataframe` of an empty batch yields
the column-less empty frame, and `get_personal_bests` on that frame raises
(`df["type"]` is a `KeyError`) for each of the three filters instead of
returning an empty mapping. -/
theorem c1_counterexample :
    activities_to_dataframe ([] : List RawActivity) = .ok dfEmpty ∧
      (get_personal_bests dfEmpty "All").isOk = false ∧
      (get_personal_bests dfEmpty "Run").isOk = false ∧
      (get_personal_bests dfEmpty "Ride").isOk = false :=
  ⟨rfl, by decide, by decide, by decide⟩

/-- C1 (amended): the aggregate functions do return empty structures on an
empty table, and `get_personal_bests` returns the empty mapping on an empty
table that still carries a `type` column; but on the column-less empty
table produced from an empty batch, `get_personal_bests` raises for every
filter in `{"All", "Run", "Ride"}`. -/
theorem c1_amended :
    (∀ df : ActivityDF, df.rows = [] →
      weekly_summary df = .ok [] ∧ monthly_summary df = .ok []) ∧
      (∀ df : ActivityDF, df.rows = [] → df.hasType = true →
        get_personal_bests df "All" = .ok [] ∧ get_personal_bests df "Run" = .ok [] ∧
        get_personal_bests df "Ride" = .ok []) ∧
      (get_personal_bests dfEmpty "All").isOk = false ∧
      (get_personal_bests dfEmpty "Run").isOk = false ∧
      (get_personal_bests dfEmpty "Ride").isOk = false := by
  refine ⟨?_, ?_, by decide, by decide, by decide⟩
  · intro df hrows
    constructor
    · unfold weekly_summary
      rw [hrows]
      simp
    · unfold monthly_summary
      rw [hrows]
      simp
  · intro df hrows ht
    refine ⟨?_, ?_, ?_⟩ <;>
      simp [get_personal_bests, filter_by_type, ht, hrows, runsBlock, ridesBlock,
        Except.bind, dfEmpty, showRun, showRide]

/-- C1 witness: the amended behaviour at a concrete empty table with a
`type` column and at the column-less empty frame. -/
theorem c1_amended_witness :
    weekly_summary c8df = .ok [] ∧ get_personal_bests c8df "All" = .ok [] ∧
      (get_personal_bests dfEmpty "All").isOk = false :=
  ⟨(c1_amended.1 c8df rfl).1, (c1_amended.2.1 c8df rfl rfl).1, c1_amended.2.2.1⟩

/-! ### C7: field reconciliation is column-level, not per-record -/

/-- First raw record of the C7 batch: carries the canonical `distance`. -/
def c7raw1 : RawActivity :=
  { id := some 1, type := some "Run", start_date_local := some ⟨2024, 1, 1⟩,
    distance := some 100 }

/-- Second raw record of the C7 batch: carries only the provider alias
`icu_distance`. -/
def c7raw2 : RawActivity :=
  { id := some 2, type := some "Run", start_date_local := some ⟨2024, 1, 1⟩,
    icu_distance := some 200 }

/-- The C7 batch mixing canonical and alias field carriers. -/
def c7batch : List RawActivity := [c7raw1, c7raw2]

/-- The enriched rows of the C7 batch. -/
def c7row1 : Enriched :=
  enrichRow c7batch (colSome c7batch (·.start_date)) c7raw1
    ((resolveSDL (colSome c7batch (·.start_date_local)) c7raw1).getD ⟨1970, 1, 1⟩)

/-- Second enriched row of the C7 batch. -/
def c7row2 : Enriched :=
  enrichRow c7batch (colSome c7batch (·.start_date)) c7raw2
    ((resolveSDL (colSome c7batch (·.start_date_local)) c7raw2).getD ⟨1970, 1, 1⟩)

/-- The table built from the C7 batch. -/
def c7df : ActivityDF := ⟨[c7row1, c7row2], true, true, false, true, false, false⟩

/-- C7 counterexample: the second record carries `icu_distance = 200` and no
canonical `distance`, yet its normalized distance is undefined — neither the
alias value 200 nor the claimed default 0 — because the alias copy is
suppressed when any other record provides the canonical column. -/
theorem c7_counterexample :
    activities_to_dataframe c7batch = .ok c7df ∧
      c7df.rows.map (·.distance) = [some 100, none] :=
  ⟨rfl, by decide⟩

/-- The resolved cell of a defaulted numeric column, as a first-match chain
over column presence. -/
theorem colResolve (batch : List RawActivity) (fc fa : RawActivity → Option ℚ)
    (r : RawActivity) :
    (defaultStep (aliasStep (rawCol batch fc) (rawCol batch fa))).val r =
      if colSome batch fc then fc r
      else if colSome batch fa then fa r
      else some 0 := by
  unfold defaultStep aliasStep rawCol
  rcases h1 : colSome batch fc <;> rcases h2 : colSome batch fa <;> simp [h1, h2]

/-- The resolved cell of a power column (no default): the chain falls back
to the undefined cell, since an absent column means no record carries the
field. -/
theorem wattsResolve (batch : List RawActivity) (fc fa : RawActivity → Option ℚ)
    {r : RawActivity} (hr : r ∈ batch) :
    (aliasStep (rawCol batch fc) (rawCol batch fa)).val r =
      if colSome batch fc then fc r
      else if colSome batch fa then fa r
      else none := by
  unfold aliasStep rawCol
  rcases h1 : colSome batch fc <;> rcases h2 : colSome batch fa <;> simp [h1, h2]
  have hnone := List.any_eq_false.mp h1 r hr
  rcases hv : fc r with _ | v
  · rfl
  · rw [hv] at hnone
    simp at hnone

/-- C7 (amended): field reconciliation happens at batch (column) level —
per record, each of the four defaulted fields resolves to the record's cell
of the canonical column when any record of the batch carries the canonical
name, else to its cell of the alias column when any record carries the
alias, else to the constant 0; the two power fields likewise but with no
default.  A record lacking the chosen column's field is undefined, not
alias-resolved.  On single-record batches this coincides with the claimed
per-record first-match-wins rule. -/
theorem c7_amended :
    (∀ batch df, activities_to_dataframe batch = .ok df → batch ≠ [] →
      df.rows.map (·.distance) = batch.map (fun r =>
        if colSome batch (·.distance) then r.distance
        else if colSome batch (·.icu_distance) then r.icu_distance
        else some 0) ∧
      df.rows.map (·.moving_time) = batch.map (fun r =>
        if colSome batch (·.moving_time) then r.moving_time
        else if colSome batch (·.icu_moving_time) then r.icu_moving_time
        else some 0) ∧
      df.rows.map (·.elapsed_time) = batch.map (fun r =>
        if colSome batch (·.elapsed_time) then r.elapsed_time
        else if colSome batch (·.icu_elapsed_time) then r.icu_elapsed_time
        else some 0) ∧
      df.rows.map (·.total_elevation_gain) = batch.map (fun r =>
        if colSome batch (·.total_elevation_gain) then r.total_elevation_gain
        else if colSome batch (·.icu_total_elevation_gain) then r.icu_total_elevation_gain
        else some 0) ∧
      df.rows.map (·.average_watts) = batch.map (fun r =>
        if colSome batch (·.average_watts) then r.average_watts
        else if colSome batch (·.icu_average_watts) then r.icu_average_watts
        else none) ∧
      df.rows.map (·.weighted_avg_watts) = batch.map (fun r =>
        if colSome batch (·.weighted_avg_watts) then r.weighted_avg_watts
        else if colSome batch (·.icu_weighted_avg_watts) then r.icu_weighted_avg_watts
        else none)) ∧
      ∀ r df, activities_to_dataframe [r] = .ok df →
        df.rows.map (·.distance) =
          [some ((r.distance.or r.icu_distance).getD 0)] ∧
        df.rows.map (·.average_watts) = [r.average_watts.or r.icu_average_watts] := by
  constructor
  · intro batch df h hne
    rcases atd_ok_inv h with ⟨hnil, _⟩ | hrows
    · exact absurd hnil hne
    · rw [hrows, List.map_map, List.map_map, List.map_map, List.map_map, List.map_map,
        List.map_map]
      refine ⟨?_, ?_, ?_, ?_, ?_, ?_⟩ <;> apply List.map_congr_left <;> intro r hr
      · exact colResolve batch (·.distance) (·.icu_distance) r
      · exact colResolve batch (·.moving_time) (·.icu_moving_time) r
      · exact colResolve batch (·.elapsed_time) (·.icu_elapsed_time) r
      · exact colResolve batch (·.total_elevation_gain) (·.icu_total_elevation_gain) r
      · exact wattsResolve batch (·.average_watts) (·.icu_average_watts) hr
      · exact wattsResolve batch (·.weighted_avg_watts) (·.icu_weighted_avg_watts) hr
  · intro r df h
    rcases atd_ok_inv h with ⟨hnil, _⟩ | hrows
    · cases hnil
    · rw [hrows]
      constructor
      · show [(distanceCol [r]).val r] = _
        unfold distanceCol
        rw [colResolve [r] (·.distance) (·.icu_distance) r]
        rcases hd : r.distance with _ | v <;>
          rcases hi : r.icu_distance with _ | w <;>
            simp [colSome, hd, hi, Option.or]
      · show [(avgWattsCol [r]).val r] = _
        unfold avgWattsCol
        rw [wattsResolve [r] (·.average_watts) (·.icu_average_watts)
          (List.mem_singleton.mpr rfl)]
        rcases hd : r.average_watts with _ | v <;>
          rcases hi : r.icu_average_watts with _ | w <;>
            simp [colSome, hd, hi, Option.or]

/-- The enriched row of the singleton batch `[c7raw2]`. -/
def c7srow : Enriched :=
  enrichRow [c7raw2] (colSome [c7raw2] (·.start_date)) c7raw2
    ((resolveSDL (colSome [c7raw2] (·.start_date_local)) c7raw2).getD ⟨1970, 1, 1⟩)

/-- The table built from the singleton batch `[c7raw2]`. -/
def c7sdf : ActivityDF := ⟨[c7srow], true, true, false, true, false, false⟩

/-- C7 witness: the amended column-level law applied at the mixed batch and
the per-record law at a singleton batch. -/
theorem c7_amended_witness :
    (c7df.rows.map (·.distance) = c7batch.map (fun r =>
      if colSome c7batch (·.distance) then r.distance
      else if colSome c7batch (·.icu_distance) then r.icu_distance
      else some 0)) ∧
      c7sdf.rows.map (·.distance) =
        [some ((c7raw2.distance.or c7raw2.icu_distance).getD 0)] :=
  ⟨(c7_amended.1 c7batch c7df rfl (by decide)).1,
    (c7_amended.2 c7raw2 c7sdf rfl).1⟩

/-! ### Aggregation lemmas for the weekly and monthly summaries -/

theorem sum_map_add {α : Type} (f g : α → ℚ) (l : List α) :
    (l.map (fun a => f a + g a)).sum = (l.map f).sum + (l.map g).sum := by
  induction l with
  | nil => simp
  | cons x t ih =>
    simp only [List.map_cons, List.sum_cons, ih]
    ring

theorem sum_if_zero {κ : Type} [DecidableEq κ] (keys : List κ) (k0 : κ) (c : ℚ)
    (hnot : k0 ∉ keys) : (keys.map (fun k => if k0 = k then c else 0)).sum = 0 := by
  induction keys with
  | nil => simp
  | cons k ks ih =>
    rw [List.map_cons, List.sum_cons]
    rw [if_neg (by rintro rfl; exact hnot (List.mem_cons_self _ _))]
    rw [ih (fun hm => hnot (List.mem_cons_of_mem _ hm))]
    norm_num

theorem sum_if_single {κ : Type} [DecidableEq κ] {keys : List κ} (hk : keys.Nodup)
    {k0 : κ} (hmem : k0 ∈ keys) (c : ℚ) :
    (keys.map (fun k => if k0 = k then c else 0)).sum = c := by
  induction keys with
  | nil => cases hmem
  | cons k ks ih =>
    rw [List.map_cons, List.sum_cons]
    rcases List.mem_cons.mp hmem with rfl | hmem2
    · rw [if_pos rfl, sum_if_zero ks k0 c (List.nodup_cons.mp hk).1]
      norm_num
    · have hne : k0 ≠ k := by
        rintro rfl
        exact (List.nodup_cons.mp hk).1 hmem2
      rw [if_neg hne, ih (List.nodup_cons.mp hk).2 hmem2, zero_add]

/-- Summing a value fiberwise over a duplicate-free covering key list equals
summing it over all rows: the groups of a `groupby` partition the rows. -/
theorem sum_fibers {κ : Type} [DecidableEq κ] (key : Enriched → κ) (val : Enriched → ℚ)
    (keys : List κ) (hnd : keys.Nodup) (rows : List Enriched)
    (hcov : ∀ r ∈ rows, key r ∈ keys) :
    (keys.map (fun k => ((rows.filter (fun r => key r = k)).map val).sum)).sum
      = (rows.map val).sum := by
  induction rows with
  | nil =>
    simp
  | cons x t ih =>
    have hx := hcov x (List.mem_cons_self x t)
    have hcov2 : ∀ r ∈ t, key r ∈ keys := fun r hr => hcov r (List.mem_cons_of_mem x hr)
    have hsplit : ∀ k : κ, (((x :: t).filter (fun r => key r = k)).map val).sum
        = (if key x = k then val x else 0) +
          ((t.filter (fun r => key r = k)).map val).sum := by
      intro k
      rw [List.filter_cons]
      by_cases hxk : key x = k
      · simp [hxk]
      · simp [hxk]
    calc (keys.map (fun k => (((x :: t).filter (fun r => key r = k)).map val).sum)).sum
        = (keys.map (fun k => (if key x = k then val x else 0) +
            ((t.filter (fun r => key r = k)).map val).sum)).sum := by
          exact congrArg _ (List.map_congr_left fun k _ => hsplit k)
      _ = (keys.map (fun k => if key x = k then val x else 0)).sum +
            (keys.map (fun k => ((t.filter (fun r => key r = k)).map val).sum)).sum :=
          sum_map_add _ _ _
      _ = val x + (t.map val).sum := by rw [sum_if_single hnd hx, ih hcov2]
      _ = ((x :: t).map val).sum := by simp

/-- An NA-skipping column sum equals the plain sum with NA read as 0. -/
theorem optSum_map_getD (f : Enriched → Option ℚ) (l : List Enriched) :
    optSum (l.map f) = (l.map (fun x => (f x).getD 0)).sum := by
  unfold optSum
  rw [List.filterMap_map]
  simp only [Function.id_comp]
  induction l with
  | nil => simp
  | cons x t ih =>
    rcases hf : f x with _ | v <;>
      simp [List.filterMap_cons, Function.comp, hf, ih]

theorem optMean_map (f : Enriched → Option ℚ) (l : List Enriched) :
    optMean (l.map f) =
      if (l.filterMap f).isEmpty then none
      else some ((l.filterMap f).sum / (l.filterMap f).length) := by
  unfold optMean
  rw [List.filterMap_map]
  simp [Function.comp]

/-- Inversion of a successful `weekly_summary` call. -/
theorem weekly_ok_inv {df : ActivityDF} {wout : List (SummaryRow Int)}
    (h : weekly_summary df = .ok wout) :
    (df.rows = [] ∧ wout = []) ∨ wout = groupAgg (· ≤ ·) (·.week_start) df.rows := by
  unfold weekly_summary at h
  split at h
  · cases h
    exact Or.inl ⟨List.isEmpty_iff.mp (by assumption), rfl⟩
  · split at h
    · cases h
    · cases h
      exact Or.inr rfl

/-- Inversion of a successful `monthly_summary` call. -/
theorem monthly_ok_inv {df : ActivityDF} {mout : List (SummaryRow String)}
    (h : monthly_summary df = .ok mout) :
    (df.rows = [] ∧ mout = []) ∨ mout = groupAgg (· ≤ ·) (·.month) df.rows := by
  unfold monthly_summary at h
  split at h
  · cases h
    exact Or.inl ⟨List.isEmpty_iff.mp (by assumption), rfl⟩
  · split at h
    · cases h
    · cases h
      exact Or.inr rfl

theorem groupAgg_keys {κ : Type} [DecidableEq κ] (le : κ → κ → Prop) [DecidableRel le]
    (key : Enriched → κ) (rows : List Enriched) :
    (groupAgg le key rows).map (·.key) = ((rows.map key).dedup).insertionSort le := by
  unfold groupAgg
  rw [List.map_map]
  have : ((fun s : SummaryRow κ => s.key) ∘ fun k =>
      aggGroup k (rows.filter (fun r => key r = k))) = id := by
    funext k
    rfl
  rw [this, List.map_id]

theorem groupAgg_sortedKeys_nodup {κ : Type} [DecidableEq κ] (le : κ → κ → Prop)
    [DecidableRel le] (key : Enriched → κ) (rows : List Enriched) :
    (((rows.map key).dedup).insertionSort le).Nodup :=
  (List.perm_insertionSort le _).nodup_iff.mpr (List.nodup_dedup _)

theorem groupAgg_sortedKeys_cover {κ : Type} [DecidableEq κ] (le : κ → κ → Prop)
    [DecidableRel le] (key : Enriched → κ) (rows : List Enriched) :
    ∀ r ∈ rows, key r ∈ ((rows.map key).dedup).insertionSort le := by
  intro r hr
  rw [List.mem_insertionSort, List.mem_dedup]
  exact List.mem_map_of_mem key hr

/-! ### C5: totals are preserved and outputs are key-sorted -/

/-- C5: the weekly totals of `distance_km` sum to the table total (the week
groups partition the records; NA distance cells count as their NA-skipped
contribution 0), and both summaries come out sorted ascending by their
grouping key. -/
theorem c5_totals_and_order :
    ∀ (df : ActivityDF) (wout : List (SummaryRow Int)) (mout : List (SummaryRow String)),
      weekly_summary df = .ok wout → monthly_summary df = .ok mout →
      (wout.map (·.total_distance_km)).sum =
        (df.rows.map (fun r => r.distance_km.getD 0)).sum ∧
      (wout.map (·.key)).Sorted (· ≤ ·) ∧
      (mout.map (·.key)).Sorted (· ≤ ·) := by
  intro df wout mout hw hm
  refine ⟨?_, ?_, ?_⟩
  · rcases weekly_ok_inv hw with ⟨hrows, hout⟩ | hout
    · subst hout
      rw [hrows]
      simp
    · subst hout
      unfold groupAgg
      rw [List.map_map]
      have hcomp : ((fun s : SummaryRow Int => s.total_distance_km) ∘ fun k =>
          aggGroup k (df.rows.filter (fun r => r.week_start = k))) = fun k =>
            ((df.rows.filter (fun r => r.week_start = k)).map
              (fun r => r.distance_km.getD 0)).sum := by
        funext k
        show optSum ((df.rows.filter (fun r => r.week_start = k)).map (·.distance_km)) = _
        rw [optSum_map_getD]
      rw [hcomp]
      exact sum_fibers (·.week_start) (fun r => r.distance_km.getD 0) _
        (groupAgg_sortedKeys_nodup (· ≤ ·) (·.week_start) df.rows)
        df.rows (groupAgg_sortedKeys_cover (· ≤ ·) (·.week_start) df.rows)
  · rcases weekly_ok_inv hw with ⟨_, hout⟩ | hout
    · subst hout
      simp
    · subst hout
      rw [groupAgg_keys]
      exact List.sorted_insertionSort _ _
  · rcases monthly_ok_inv hm with ⟨_, hout⟩ | hout
    · subst hout
      simp
    · subst hout
      rw [groupAgg_keys]
      exact List.sorted_insertionSort _ _

/-- The weekly summary of the C6 witness table. -/
def c5wout : List (SummaryRow Int) := (weekly_summary c6df).toOption.getD []

/-- The monthly summary of the C6 witness table. -/
def c5mout : List (SummaryRow String) := (monthly_summary c6df).toOption.getD []

/-- C5 witness: the totals and ordering law at the concrete two-run table. -/
theorem c5_totals_and_order_witness :
    (c5wout.map (·.total_distance_km)).sum =
      (c6df.rows.map (fun r => r.distance_km.getD 0)).sum ∧
      (c5wout.map (·.key)).Sorted (· ≤ ·) ∧
      (c5mout.map (·.key)).Sorted (· ≤ ·) :=
  c5_totals_and_order c6df c5wout c5mout
    (exceptOkEq (weekly_summary c6df) [] (by decide))
    (exceptOkEq (monthly_summary c6df) [] (by decide))

/-! ### C4: summary means skip undefined cells -/

/-- The rows of the table falling in the week starting at epoch day `k`. -/
def weekGroup (df : ActivityDF) (k : Int) : List Enriched :=
  df.rows.filter (fun r => r.week_start = k)

/-- C4: each weekly row's `avg_pace` is the arithmetic mean of the defined
paces of its week only — undefined paces appear in neither numerator nor
denominator — and a week with no defined pace gets an undefined average;
likewise for `avg_speed_kmh`. -/
theorem c4_mean_skips_undefined :
    ∀ (df : ActivityDF) (wout : List (SummaryRow Int)),
      weekly_summary df = .ok wout → ∀ row ∈ wout,
      ((weekGroup df row.key).filterMap (·.pace_min_per_km) = [] →
        row.avg_pace = none) ∧
      ((weekGroup df row.key).filterMap (·.pace_min_per_km) ≠ [] →
        row.avg_pace = some (((weekGroup df row.key).filterMap (·.pace_min_per_km)).sum /
          ((weekGroup df row.key).filterMap (·.pace_min_per_km)).length)) ∧
      ((weekGroup df row.key).filterMap (·.speed_kmh) = [] →
        row.avg_speed_kmh = none) ∧
      ((weekGroup df row.key).filterMap (·.speed_kmh) ≠ [] →
        row.avg_speed_kmh = some (((weekGroup df row.key).filterMap (·.speed_kmh)).sum /
          ((weekGroup df row.key).filterMap (·.speed_kmh)).length)) := by
  intro df wout hw row hrow
  rcases weekly_ok_inv hw with ⟨_, hout⟩ | hout
  · subst hout
    cases hrow
  · subst hout
    unfold groupAgg at hrow
    obtain ⟨k, _, hrow⟩ := List.mem_map.mp hrow
    have hkey : row.key = k := by
      rw [← hrow]
      rfl
    have hpace : row.avg_pace =
        optMean ((weekGroup df k).map (·.pace_min_per_km)) := by
      rw [← hrow]
      rfl
    have hspeed : row.avg_speed_kmh =
        optMean ((weekGroup df k).map (·.speed_kmh)) := by
      rw [← hrow]
      rfl
    rw [hkey, hpace, hspeed, optMean_map, optMean_map]
    refine ⟨?_, ?_, ?_, ?_⟩
    · intro hemp
      rw [hemp]
      simp
    · intro hne
      rw [if_neg (by simpa [List.isEmpty_iff] using hne)]
    · intro hemp
      rw [hemp]
      simp
    · intro hne
      rw [if_neg (by simpa [List.isEmpty_iff] using hne)]

theorem headD_mem {α : Type} (l : List α) (d : α) (h : l ≠ []) : l.headD d ∈ l := by
  cases l with
  | nil => cases h rfl
  | cons x t => exact List.mem_cons_self x t

/-- The first weekly row of the C6 witness table. -/
def c4row : SummaryRow Int := c5wout.headD (aggGroup 0 [])

/-- C4 witness: the mean law applied at the concrete two-run table's first
weekly row. -/
theorem c4_mean_skips_undefined_witness :
    ((weekGroup c6df c4row.key).filterMap (·.pace_min_per_km) = [] →
      c4row.avg_pace = none) ∧
    ((weekGroup c6df c4row.key).filterMap (·.pace_min_per_km) ≠ [] →
      c4row.avg_pace = some (((weekGroup c6df c4row.key).filterMap (·.pace_min_per_km)).sum /
        ((weekGroup c6df c4row.key).filterMap (·.pace_min_per_km)).length)) ∧
    ((weekGroup c6df c4row.key).filterMap (·.speed_kmh) = [] →
      c4row.avg_speed_kmh = none) ∧
    ((weekGroup c6df c4row.key).filterMap (·.speed_kmh) ≠ [] →
      c4row.avg_speed_kmh = some (((weekGroup c6df c4row.key).filterMap (·.speed_kmh)).sum /
        ((weekGroup c6df c4row.key).filterMap (·.speed_kmh)).length)) :=
  c4_mean_skips_undefined c6df c5wout (exceptOkEq (weekly_summary c6df) [] (by decide))
    c4row (headD_mem c5wout (aggGroup 0 []) (by decide))

end StravaDash
